import Mathlib

/-!
Verification of the FastNotepadNotesExport program: a single-file Python
script that parses a "Fast Notepad" Android backup dump and exports the
notes as `.txt` files in a directory tree.

The embedding is shallow and executable:

* Python strings are modelled as `List Char` (`Str`), matching Python's
  view of a string as a sequence of code points.
* The file system is a value `FS`: a list of directory paths plus a list
  of (path, contents) file entries.  `os.path.exists`, `os.mkdir`,
  `open(..., "w")` / `write` and `shutil.rmtree` become pure functions on
  `FS`.  `os.mkdir` is modelled as unconditionally recording the new
  directory; on every path the script takes, the name was just checked or
  generated to be fresh, so the OS-level "already exists" failure mode
  cannot fire.
* `random.choice(string.digits)` is modelled by an explicit stream
  `Nat → Fin 10` of digit choices together with a counter threaded through
  the program state `St`, which also carries the script's global
  `created_path`.
* The `while os.path.exists(...)` loop of `gen_unique_name` is modelled
  with explicit fuel `maxPathLen fs + 1`; `gen_unique_go_fresh` below
  proves this fuel always suffices, so the fuel-exhaustion branch is
  unreachable and the model agrees with the unbounded loop.
* Character predicates (`\w` of the regex, `str.upper`, `str.strip`) are
  modelled with Lean's ASCII character functions; the dump-format strings
  the claims are about are ASCII.
* Python raises exceptions; the model returns `Except` values.  A failed
  dictionary subscript (`folder_paths[...]`, `folders_json['folders']`,
  `index_json['index']`) is a Python `KeyError`, a different class from
  the script's own `FastNotepadParserError`; the error type `PErr`
  distinguishes the two.  Error messages that interpolate exception
  details (the JSON decode error) are modelled by their fixed prefix.
-/

namespace FastNotepad

/-- A Python string: a sequence of code points. -/
abbrev Str := List Char

/-! ### Characters used to build strings that the token rules make awkward to
write literally (apostrophe, braces). -/

/-- The apostrophe character (used inside the script's error messages). -/
def apos : Char := Char.ofNat 39

/-- Opening curly brace. -/
def lbrace : Char := Char.ofNat 123

/-- Closing curly brace. -/
def rbrace : Char := Char.ofNat 125

/-! ### Constants of the script (lines 22-43 of the source) -/

def NOTE_FILE_EXTENSION : Str := ".txt".data

def TRASH_FOLDER_NAME : Str := "Recycle-bin".data

/-- `JSON_OBJECTS_DIVIDER = r"{[!*|@]}"`. -/
def JSON_OBJECTS_DIVIDER : Str := "\x7b[!*|@]\x7d".data

def TRASH_FOLDER_CSV_NAME : Str := " ".data

def CSV_ROW_LENGTH : Nat := 10
def CSV_COL_FILE_INDEX : Nat := 0
def CSV_COL_FOLDER_NAME : Nat := 1
def CSV_COL_FILE_NAME : Nat := 9

def FILE_NAME_MAX_LEN : Nat := 50

/-- Characters KEPT by `RE_RESTRICTED_CHARS.sub('', name)`, i.e. the class
`[\w. _-]` (word characters, dot, space, underscore, hyphen). -/
def isAllowedChar (c : Char) : Bool :=
  c.isAlphanum || c == '_' || c == '.' || c == ' ' || c == '-'

def RESTRICTED_NAMES : List Str :=
  (["CON", "PRN", "AUX", "NUL", "COM0", "COM1", "COM2", "COM3", "COM4", "COM5",
    "COM6", "COM7", "COM8", "COM9", "COM¹", "COM²", "COM³", "LPT0", "LPT1", "LPT2",
    "LPT3", "LPT4", "LPT5", "LPT6", "LPT7", "LPT8", "LPT9", "LPT¹", "LPT²", "LPT³"]
   : List String).map String.data

/-! ### Error model

`PErr.parserError msg` models a raised `FastNotepadParserError(msg)`.
The remaining constructors model Python exceptions that are NOT of the
script's own class and reach the driver's bare `except`: `keyError` from
a failed dictionary subscript, `csvError` (`_csv.Error`), `typeError`
(`TypeError` from `in`, subscripting or `file.write` on unsuitable
values), and `attrError` (`AttributeError` from `.split` on a
non-string). -/

inductive PErr where
  | parserError (msg : Str)
  | keyError (key : Str)
  | csvError
  | typeError
  | attrError
deriving DecidableEq

/-- "Error: Couldn't find expected data. Possibly wrong file." -/
def msgCouldntFind : Str :=
  "Error: Couldn".data ++ [apos] ++ "t find expected data. Possibly wrong file.".data

/-- The message of the JSON-load failure: the source appends the Python
`JSONDecodeError` detail, modelled here by the fixed prefix. -/
def msgJsonLoad : Str := msgCouldntFind ++ " JSON load error: ".data

/-- "Error: Wrong 'index' data." -/
def msgWrongIndex : Str :=
  "Error: Wrong ".data ++ [apos] ++ "index".data ++ [apos] ++ " data.".data

/-- "Error: Couldn't find note's text!" -/
def msgMissingNote : Str :=
  "Error: Couldn".data ++ [apos] ++ "t find note".data ++ [apos] ++ "s text!".data

/-- f-string `Error: Folder "{folder_path}" already exists!`. -/
def msgFolderExists (p : Str) : Str :=
  "Error: Folder \x22".data ++ p ++ "\x22 already exists!".data

/-! ### File-system model -/

structure FS where
  dirs : List Str
  files : List (Str × Str)
deriving DecidableEq

/-- All existing paths (directories and files). -/
def FS.paths (fs : FS) : List Str := fs.dirs ++ fs.files.map Prod.fst

/-- `os.path.exists`. -/
def fsExists (fs : FS) (p : Str) : Bool := decide (p ∈ fs.paths)

/-- `os.mkdir` (on the script's paths the argument is always fresh). -/
def FS.mkdir (fs : FS) (p : Str) : FS := { fs with dirs := fs.dirs ++ [p] }

/-- `open(p, 'w')` followed by writing `c`: truncate/create the file at `p`
with contents `c`. -/
def FS.setFile (fs : FS) (p c : Str) : FS :=
  if p ∈ fs.files.map Prod.fst then
    { fs with files := fs.files.map (fun q => if q.1 = p then (p, c) else q) }
  else
    { fs with files := fs.files ++ [(p, c)] }

/-- Look up an association list, last binding wins (matches both reading a
file from `FS.files` and a Python `dict` built by repeated assignment). -/
def assocLast (m : List (Str × Str)) (key : Str) : Option Str :=
  ((m.filter (fun q => decide (q.1 = key))).getLast?).map Prod.snd

/-- Reading back the file at `p`. -/
def fileLookup (fs : FS) (p : Str) : Option Str := assocLast fs.files p

/-! ### Path construction (source `full_path`, lines 51-55) -/

/-- `os.path.join(folder, name)` for one component. -/
def osPathJoin (folder name : Str) : Str :=
  if name.head? = some '/' then name
  else if folder = [] ∨ folder.getLast? = some '/' then folder ++ name
  else folder ++ '/' :: name

/-- Source `full_path(name, folder, is_dir)`: join the segments and add the
`.txt` extension for files. -/
def full_path (name folder : Str) (is_dir : Bool) : Str :=
  if is_dir then osPathJoin folder name
  else osPathJoin folder name ++ NOTE_FILE_EXTENSION

/-! ### Name sanitizing (source `sanitize_name`, lines 57-88) -/

/-- `string.digits` as a function from the random choice to the character. -/
def digitChar (d : Fin 10) : Char := "0123456789".data.getD d.val '0'

/-- Python `str.strip()`: remove leading and trailing whitespace. -/
def pyStrip (l : Str) : Str :=
  ((l.dropWhile Char.isWhitespace).reverse.dropWhile Char.isWhitespace).reverse

/-- Python `str.upper()` (ASCII model). -/
def toUpperStr (l : Str) : Str := l.map Char.toUpper

/-- Length of the longest existing path; used to bound the
`gen_unique_name` loop. -/
def maxPathLen (fs : FS) : Nat := (fs.paths.map List.length).foldr Nat.max 0

/-- The body of `gen_unique_name`'s `while os.path.exists(...)` loop, with
fuel.  `stream`/`k` model the successive results of
`random.choice(string.digits)`. -/
def gen_unique_go (stream : Nat → Fin 10) (fs : FS) :
    Nat → Nat → Str → Str → Bool → Str × Nat
  | 0, k, name, _, _ => (name, k)
  | fuel + 1, k, name, folder, is_dir =>
    if fsExists fs (full_path name folder is_dir) then
      gen_unique_go stream fs fuel (k + 1) (name ++ [digitChar (stream k)]) folder is_dir
    else (name, k)

/-- Source `gen_unique_name`: append random digits until the path is free.
The fuel `maxPathLen fs + 1` is proved sufficient below
(`gen_unique_go_fresh`), so this equals the unbounded loop. -/
def gen_unique_name (stream : Nat → Fin 10) (fs : FS) (k : Nat)
    (name folder : Str) (is_dir : Bool) : Str × Nat :=
  gen_unique_go stream fs (maxPathLen fs + 1) k name folder is_dir

/-- The deterministic front part of `sanitize_name` (source lines 67-82):
strip restricted characters, cut to the maximum length, strip whitespace,
discard reserved names, replace an empty result by `_`. -/
def sanitize_base (name : Str) : Str :=
  let n1 := name.filter isAllowedChar
  let n2 := n1.take FILE_NAME_MAX_LEN
  let n3 := pyStrip n2
  let n4 := if toUpperStr n3 ∈ RESTRICTED_NAMES then [] else n3
  if n4 = [] then ['_'] else n4

/-- Source `sanitize_name(name, folder, is_dir)`: returns the chosen name
together with the advanced random-stream counter. -/
def sanitize_name (stream : Nat → Fin 10) (fs : FS) (k : Nat)
    (name folder : Str) (is_dir : Bool) : Str × Nat :=
  let n := sanitize_base name
  if fsExists fs (full_path n folder is_dir) then
    gen_unique_name stream fs k n folder is_dir
  else (n, k)

/-! ### Program state

`created_path` is the script's global of the same name (line 46); `k` is
the position in the random-digit stream. -/

structure St where
  fs : FS
  created_path : Str
  k : Nat
deriving DecidableEq

/-! ### Pseudo-CSV index parsing (source `parse_csv`, lines 172-198)

`csv.reader(csv_string.split('^!'), delimiter=';')` is modelled after the
CPython `_csv` state machine (default dialect: `quotechar='"'`, doubled
quotes as escapes, no escape char, non-strict):

* records end only at the end of a row string; a row string ending inside
  a quoted field CONTINUES into the next row string (the `^!`-split parts
  carry no newlines, so the parts are concatenated directly);
* a `\n` or `\r` inside an unquoted field ends the record early and any
  further character on that row raises `_csv.Error` ("new-line character
  seen in unquoted field") — an exception outside the script's own error
  class, modelled as `PErr.csvError`;
* an empty row string yields the empty record `[]`, which the script then
  skips;
* at end of input inside a quoted field the pending record is yielded. -/

/-- `csv_string.split('^!')` (Python `str.split` on a substring). -/
def splitRows : Str → List Str
  | [] => [[]]
  | '^' :: '!' :: rest => [] :: splitRows rest
  | c :: rest => (splitRows rest).modifyHead (c :: ·)

/-- `folders_string.split('\n')`. -/
def splitOnNl : Str → List Str
  | [] => [[]]
  | '\n' :: rest => [] :: splitOnNl rest
  | c :: rest => (splitOnNl rest).modifyHead (c :: ·)

/-- States of the `csv.reader` scanner (the CPython `_csv.c` states the
default dialect can reach). -/
inductive CsvSt where
  | startRecord | startField | inField | inQuoted | quoteInQuoted | eatCrnl
deriving DecidableEq

/-- Result of scanning one row string: a `_csv.Error`, a completed record,
or a continuation (row ended inside a quoted field; `field`/`acc` are the
reversed current field and the finished fields). -/
inductive LineRes where
  | err
  | done (record : List Str)
  | cont (field : Str) (acc : List Str)
deriving DecidableEq

/-- Scan one row string.  `field` is the current field reversed, `acc` the
finished fields reversed. -/
def csvLineAux : Str → CsvSt → Str → List Str → LineRes
  | [], st, field, acc =>
    match st with
    | .startRecord => .done []
    | .startField => .done (field.reverse :: acc).reverse
    | .inField => .done (field.reverse :: acc).reverse
    | .inQuoted => .cont field acc
    | .quoteInQuoted => .done (field.reverse :: acc).reverse
    | .eatCrnl => .done acc.reverse
  | c :: rest, .startRecord, field, acc =>
    if c = '\n' ∨ c = '\r' then csvLineAux rest .eatCrnl field acc
    else if c = '\x22' then csvLineAux rest .inQuoted field acc
    else if c = ';' then csvLineAux rest .startField [] (field.reverse :: acc)
    else csvLineAux rest .inField (c :: field) acc
  | c :: rest, .startField, field, acc =>
    if c = '\n' ∨ c = '\r' then csvLineAux rest .eatCrnl [] (field.reverse :: acc)
    else if c = '\x22' then csvLineAux rest .inQuoted field acc
    else if c = ';' then csvLineAux rest .startField [] (field.reverse :: acc)
    else csvLineAux rest .inField (c :: field) acc
  | c :: rest, .inField, field, acc =>
    if c = '\n' ∨ c = '\r' then csvLineAux rest .eatCrnl [] (field.reverse :: acc)
    else if c = ';' then csvLineAux rest .startField [] (field.reverse :: acc)
    else csvLineAux rest .inField (c :: field) acc
  | c :: rest, .inQuoted, field, acc =>
    if c = '\x22' then csvLineAux rest .quoteInQuoted field acc
    else csvLineAux rest .inQuoted (c :: field) acc
  | c :: rest, .quoteInQuoted, field, acc =>
    if c = '\x22' then csvLineAux rest .inQuoted ('\x22' :: field) acc
    else if c = ';' then csvLineAux rest .startField [] (field.reverse :: acc)
    else if c = '\n' ∨ c = '\r' then csvLineAux rest .eatCrnl [] (field.reverse :: acc)
    else csvLineAux rest .inField (c :: field) acc
  | c :: rest, .eatCrnl, field, acc =>
    if c = '\n' ∨ c = '\r' then csvLineAux rest .eatCrnl field acc
    else .err

/-- Read all records from the `^!`-split row strings, carrying the quoted
continuation state between rows. -/
def csvReadAux : List Str → CsvSt → Str → List Str → Except Unit (List (List Str))
  | [], .inQuoted, field, acc => .ok [(field.reverse :: acc).reverse]
  | [], _, _, _ => .ok []
  | line :: rest, st, field, acc =>
    match csvLineAux line st field acc with
    | .err => .error ()
    | .done record =>
      match csvReadAux rest .startRecord [] [] with
      | .error e => .error e
      | .ok rows => .ok (record :: rows)
    | .cont field' acc' => csvReadAux rest .inQuoted field' acc'

/-- The complete `csv.reader` run over the split index string. -/
def csvReadAll (lines : List Str) : Except Unit (List (List Str)) :=
  csvReadAux lines .startRecord [] []

/-- A parsed note descriptor (the dict built at source lines 192-196). -/
structure NoteDesc where
  index : Str
  folder : Str
  name : Str
deriving DecidableEq

/-- Build the descriptor of one well-formed row (source lines 188-196):
the content key is field 0 with a `_` prefix. -/
def rowToDesc (row : List Str) : NoteDesc :=
  { index := '_' :: row.getD CSV_COL_FILE_INDEX []
  , folder := row.getD CSV_COL_FOLDER_NAME []
  , name := row.getD CSV_COL_FILE_NAME [] }

/-- The per-row loop of `parse_csv`: skip empty rows, reject rows whose
arity is not `CSV_ROW_LENGTH`, otherwise collect descriptors in order. -/
def parseCsvRows : List (List Str) → Except PErr (List NoteDesc)
  | [] => .ok []
  | row :: rest =>
    if row.length = 0 then parseCsvRows rest
    else if row.length ≠ CSV_ROW_LENGTH then .error (.parserError msgWrongIndex)
    else
      match parseCsvRows rest with
      | .error e => .error e
      | .ok tl => .ok (rowToDesc row :: tl)

/-- Source `parse_csv`: run the CSV reader (whose own `_csv.Error` is not a
`FastNotepadParserError`), then the arity loop. -/
def parse_csv (csv_string : Str) : Except PErr (List NoteDesc) :=
  match csvReadAll (splitRows csv_string) with
  | .error _ => .error .csvError
  | .ok rows => parseCsvRows rows

/-! ### Substring search and slicing (Python `str.find`/`str.rfind`) -/

/-- Scan for the first index at which `needle` occurs. -/
def findSubAux (needle : Str) : Str → Nat → Option Nat
  | [], i => if needle.isPrefixOf ([] : Str) then some i else none
  | l@(_ :: rest), i =>
    if needle.isPrefixOf l then some i else findSubAux needle rest (i + 1)

/-- Python `str.find`: first occurrence index, `none` for -1. -/
def findSub (hay needle : Str) : Option Nat := findSubAux needle hay 0

/-- Python `str.rfind`: last occurrence index, `none` for -1. -/
def rfindSub (hay needle : Str) : Option Nat :=
  ((List.range (hay.length + 1)).filter
    (fun i => needle.isPrefixOf (hay.drop i))).getLast?

/-- Python slice `l[a:b]`. -/
def strSlice (l : Str) (a b : Nat) : Str := (l.drop a).take (b - a)

/-! ### JSON model (`json.loads`)

`json.loads` can return any JSON value — objects, arrays, strings,
numbers, booleans, null — and the dump slices are not guaranteed to be
flat maps.  `JVal` models the decoded values; numeric literals keep their
lexeme, since the script never uses a number's value (every use of a
non-container value fails with a `TypeError` first).  Python's non-strict
extensions `NaN`/`Infinity`/`-Infinity` are accepted as numbers, as
`json.loads` does by default. -/

inductive JVal where
  | str (s : Str)
  | num (lexeme : Str)
  | bool (b : Bool)
  | null
  | arr (elems : List JVal)
  | obj (kvs : List (Str × JVal))

def strIndexKey : Str := "index".data
def strFoldersKey : Str := "folders".data

def isJsonWs (c : Char) : Bool := c == ' ' || c == '\t' || c == '\n' || c == '\r'

def skipWs (l : Str) : Str := l.dropWhile isJsonWs

def hexVal (c : Char) : Option Nat :=
  if '0' ≤ c ∧ c ≤ '9' then some (c.toNat - 48)
  else if 'a' ≤ c ∧ c ≤ 'f' then some (c.toNat - 87)
  else if 'A' ≤ c ∧ c ≤ 'F' then some (c.toNat - 70)
  else none

/-- Parse the contents of a JSON string after its opening quote; returns
the decoded contents and the remainder after the closing quote. -/
def parseJString : Nat → Str → Option (Str × Str)
  | 0, _ => none
  | _ + 1, [] => none
  | fuel + 1, c :: rest =>
    if c = '\x22' then some ([], rest)
    else if c = '\\' then
      match rest with
      | [] => none
      | e :: rest2 =>
        if e = '\x22' ∨ e = '\\' ∨ e = '/' then
          (parseJString fuel rest2).map (fun r => (e :: r.1, r.2))
        else if e = 'n' then (parseJString fuel rest2).map (fun r => ('\n' :: r.1, r.2))
        else if e = 't' then (parseJString fuel rest2).map (fun r => ('\t' :: r.1, r.2))
        else if e = 'r' then (parseJString fuel rest2).map (fun r => ('\r' :: r.1, r.2))
        else if e = 'b' then (parseJString fuel rest2).map (fun r => (Char.ofNat 8 :: r.1, r.2))
        else if e = 'f' then (parseJString fuel rest2).map (fun r => (Char.ofNat 12 :: r.1, r.2))
        else if e = 'u' then
          match rest2 with
          | h1 :: h2 :: h3 :: h4 :: rest3 =>
            match hexVal h1, hexVal h2, hexVal h3, hexVal h4 with
            | some a, some b, some c', some d =>
              (parseJString fuel rest3).map
                (fun r => (Char.ofNat (((a * 16 + b) * 16 + c') * 16 + d) :: r.1, r.2))
            | _, _, _, _ => none
          | _ => none
        else none
    else if c.toNat < 32 then none
    else (parseJString fuel rest).map (fun r => (c :: r.1, r.2))

/-- Parse a JSON number (the grammar of Python's `json` scanner:
`-?(0|[1-9][0-9]*)(\.[0-9]+)?([eE][+-]?[0-9]+)?`), keeping the lexeme. -/
def parseJNumber (l : Str) : Option (JVal × Str) :=
  let p := match l with
    | '-' :: r => ((['-'] : Str), r)
    | _ => (([] : Str), l)
  match p.2 with
  | [] => none
  | c :: r1 =>
    if ¬ c.isDigit then none
    else
      let ip := if c = '0' then ((['0'] : Str), r1)
        else (c :: r1.takeWhile Char.isDigit, r1.dropWhile Char.isDigit)
      let fp := match ip.2 with
        | '.' :: d :: r =>
          if d.isDigit then ('.' :: d :: r.takeWhile Char.isDigit, r.dropWhile Char.isDigit)
          else (([] : Str), ip.2)
        | _ => (([] : Str), ip.2)
      let ep := match fp.2 with
        | e :: rest =>
          if e = 'e' ∨ e = 'E' then
            let sp := match rest with
              | s :: r => if s = '+' ∨ s = '-' then (([s] : Str), r) else (([] : Str), rest)
              | [] => (([] : Str), ([] : Str))
            match sp.2 with
            | d :: r =>
              if d.isDigit then (e :: (sp.1 ++ d :: r.takeWhile Char.isDigit), r.dropWhile Char.isDigit)
              else (([] : Str), fp.2)
            | [] => (([] : Str), fp.2)
          else (([] : Str), fp.2)
        | [] => (([] : Str), fp.2)
      some (.num (p.1 ++ ip.1 ++ fp.1 ++ ep.1), ep.2)

/-- The object-member loop, parameterized by the parser for member values
(one nesting level down).  Fuel is at least the remaining length. -/
def jMembersLoop (pv : Str → Option (JVal × Str)) :
    Nat → Str → Option (List (Str × JVal) × Str)
  | 0, _ => none
  | fuel + 1, l =>
    match skipWs l with
    | [] => none
    | c :: r =>
      if c ≠ '\x22' then none
      else
        match parseJString (r.length + 1) r with
        | none => none
        | some (key, r2) =>
          match skipWs r2 with
          | ':' :: r3 =>
            match pv r3 with
            | none => none
            | some (v, r4) =>
              match skipWs r4 with
              | [] => none
              | c2 :: r5 =>
                if c2 = ',' then (jMembersLoop pv fuel r5).map (fun q => ((key, v) :: q.1, q.2))
                else if c2 = rbrace then some ([(key, v)], r5)
                else none
          | _ => none

/-- The array-item loop, parameterized by the parser for item values. -/
def jItemsLoop (pv : Str → Option (JVal × Str)) :
    Nat → Str → Option (List JVal × Str)
  | 0, _ => none
  | fuel + 1, l =>
    match pv l with
    | none => none
    | some (v, r) =>
      match skipWs r with
      | [] => none
      | c :: r2 =>
        if c = ',' then (jItemsLoop pv fuel r2).map (fun q => (v :: q.1, q.2))
        else if c = ']' then some ([v], r2)
        else none

/-- Parse a JSON value.  `depth` bounds the nesting (each level consumes
at least one character, so `length + 1` suffices). -/
def parseJVal : Nat → Str → Option (JVal × Str)
  | 0, _ => none
  | depth + 1, l =>
    match skipWs l with
    | [] => none
    | c :: r =>
      if c = '\x22' then
        (parseJString (r.length + 1) r).map (fun p => (JVal.str p.1, p.2))
      else if c = lbrace then
        match skipWs r with
        | [] => none
        | c2 :: r2 =>
          if c2 = rbrace then some (.obj [], r2)
          else (jMembersLoop (parseJVal depth) (r.length + 1) (skipWs r)).map
            (fun p => (JVal.obj p.1, p.2))
      else if c = '[' then
        match skipWs r with
        | [] => none
        | c2 :: r2 =>
          if c2 = ']' then some (.arr [], r2)
          else (jItemsLoop (parseJVal depth) (r.length + 1) (skipWs r)).map
            (fun p => (JVal.arr p.1, p.2))
      else if "true".data.isPrefixOf (c :: r) then some (.bool true, (c :: r).drop 4)
      else if "false".data.isPrefixOf (c :: r) then some (.bool false, (c :: r).drop 5)
      else if "null".data.isPrefixOf (c :: r) then some (.null, (c :: r).drop 4)
      else if "NaN".data.isPrefixOf (c :: r) then some (.num "NaN".data, (c :: r).drop 3)
      else if "Infinity".data.isPrefixOf (c :: r) then some (.num "Infinity".data, (c :: r).drop 8)
      else if "-Infinity".data.isPrefixOf (c :: r) then some (.num "-Infinity".data, (c :: r).drop 9)
      else parseJNumber (c :: r)

/-- `json.loads`: one JSON value and nothing but trailing whitespace. -/
def json_loads (s : Str) : Option JVal :=
  match parseJVal (s.length + 1) s with
  | some (v, rest) => if skipWs rest = [] then some v else none
  | none => none

/-- Python `dict` subscript/lookup on a decoded object: last binding wins
(duplicate JSON keys decode to the later value). -/
def objLookup (kvs : List (Str × JVal)) (k : Str) : Option JVal :=
  ((kvs.filter (fun p => decide (p.1 = k))).getLast?).map Prod.snd

/-- Convenience view: the string value of a key of an object value
(`none` when the value is not an object, the key is absent, or the value
is not a string). -/
def jStrLookup (v : JVal) (k : Str) : Option Str :=
  match v with
  | .obj kvs =>
    match objLookup kvs k with
    | some (.str s) => some s
    | _ => none
  | _ => none

/-- Does `v` equal the Python string `s`?  (Python `==` between a str and
a non-str value is `False`.) -/
def isStrVal (v : JVal) (s : Str) : Bool :=
  match v with
  | .str t => t == s
  | _ => false

/-- Python `needle in v`: key membership on dicts, element membership on
lists, substring test on strings; `TypeError` on non-containers. -/
def pyIn (needle : Str) (v : JVal) : Except Unit Bool :=
  match v with
  | .obj kvs => .ok (kvs.any (fun p => p.1 == needle))
  | .arr xs => .ok (xs.any (fun x => isStrVal x needle))
  | .str s => .ok ((findSub s needle).isSome)
  | _ => .error ()

/-! ### Dump extraction (source `get_json_objects`, lines 90-132) -/

/-- Source `check_json_objects` (lines 102-107): Python's short-circuit
`and` evaluates `"index" in index_json` first and skips the folders check
when it is `False`; `in` on a non-container raises `TypeError`. -/
def check_json_objects (index_json folders_json : JVal) : Except PErr Bool :=
  match pyIn strIndexKey index_json with
  | .error _ => .error .typeError
  | .ok b1 =>
    if b1 then
      match pyIn strFoldersKey folders_json with
      | .error _ => .error .typeError
      | .ok b2 => .ok b2
    else .ok false

/-- Source `get_json_objects`; it takes the dump file's text (the source
reads it from the chosen path) and touches nothing else, so the model is a
pure function of `raw`. -/
def get_json_objects (raw : Str) : Except PErr (JVal × JVal × JVal) :=
  match findSub raw [lbrace] with
  | none => .error (.parserError msgCouldntFind)
  | some index_start =>
    match findSub raw JSON_OBJECTS_DIVIDER with
    | none => .error (.parserError msgCouldntFind)
    | some index_end =>
      let folders_start := index_end + JSON_OBJECTS_DIVIDER.length
      match rfindSub raw JSON_OBJECTS_DIVIDER with
      | none => .error (.parserError msgCouldntFind)
      | some folders_end =>
        let content_start := folders_end + JSON_OBJECTS_DIVIDER.length
        match json_loads (strSlice raw index_start index_end),
              json_loads (strSlice raw folders_start folders_end),
              json_loads (raw.drop content_start) with
        | some index_json, some folders_json, some content_json =>
          match check_json_objects index_json folders_json with
          | .error e => .error e
          | .ok true => .ok (index_json, folders_json, content_json)
          | .ok false => .error (.parserError msgCouldntFind)
        | _, _, _ => .error (.parserError msgJsonLoad)

/-! ### Folder creation (source `create_folder`/`create_folders`,
lines 134-170) -/

/-- The `folder_paths` dict: raw folder label → created directory path.
Built by repeated assignment, so lookups are last-binding-wins
(`assocLast`). -/
abbrev FolderMap := List (Str × Str)

def fmLookup (m : FolderMap) (k : Str) : Option Str := assocLast m k

/-- Source `create_folder`: sanitize the name inside `folder_path`, create
the directory, return the created path. -/
def create_folder (stream : Nat → Fin 10) (name folder_path : Str) (st : St) :
    Str × St :=
  let r := sanitize_name stream st.fs st.k name folder_path true
  let valid_folder_path := full_path r.1 folder_path true
  (valid_folder_path, { st with fs := st.fs.mkdir valid_folder_path, k := r.2 })

/-- The `for folder_name in folder_list` loop of `create_folders`. -/
def create_subfolders (stream : Nat → Fin 10) (root : Str) :
    List Str → St → FolderMap → FolderMap × St
  | [], st, acc => (acc, st)
  | folder_name :: rest, st, acc =>
    let r := sanitize_name stream st.fs st.k folder_name root true
    let valid_folder_path := full_path r.1 root true
    let st' : St := { st with fs := st.fs.mkdir valid_folder_path, k := r.2 }
    create_subfolders stream root rest st' (acc ++ [(folder_name, valid_folder_path)])

/-- Source `create_folders`: refuse an existing root, create it, record it
in the global `created_path`, then access `folders_json['folders']` and
split it.  The accesses follow Python's dynamic typing: a subscript on a
non-dict raises `TypeError`, an absent key raises `KeyError`, and
`.split('\n')` on a non-string value raises `AttributeError` — all outside
the script's own error class. -/
def create_folders (stream : Nat → Fin 10) (folders_json : JVal)
    (folder_path : Str) (st : St) : Except (PErr × St) (FolderMap × St) :=
  if fsExists st.fs folder_path then
    .error (.parserError (msgFolderExists folder_path), st)
  else
    let st1 : St := { st with fs := st.fs.mkdir folder_path, created_path := folder_path }
    match folders_json with
    | .obj kvs =>
      match objLookup kvs strFoldersKey with
      | none => .error (.keyError strFoldersKey, st1)
      | some (.str folders_str) =>
        let r := create_subfolders stream folder_path (splitOnNl folders_str) st1 []
        let t := create_folder stream TRASH_FOLDER_NAME folder_path r.2
        .ok (r.1 ++ [(TRASH_FOLDER_CSV_NAME, t.1)], t.2)
      | some _ => .error (.attrError, st1)
    | _ => .error (.typeError, st1)

/-! ### Note export (source `create_files`, lines 200-227) -/

/-- Destination directory of one descriptor (source lines 211-214): the
empty label means the root itself, any other label is a dict subscript
into `folder_paths` (`KeyError` when absent). -/
def resolve_dir (folder_paths : FolderMap) (root folder : Str) : Except PErr Str :=
  if folder = [] then .ok root
  else
    match fmLookup folder_paths folder with
    | none => .error (.keyError folder)
    | some p => .ok p

/-- The `for file_data in files_index` loop (source lines 209-227): resolve
the directory, sanitize the file name, open the file for writing (creating
it empty), only then test `file_data['index'] not in content_json`
(Python `in`: `TypeError` on a non-container), and finally write
`content_json[...]` — a subscript that raises `TypeError` on a list or a
string, and a `file.write` that raises `TypeError` on a non-string value.
(The `keyError` arm is unreachable: on a dict, membership was just
checked.) -/
def create_files_loop (stream : Nat → Fin 10) (content_json : JVal)
    (folder_paths : FolderMap) (root : Str) :
    List NoteDesc → St → Except (PErr × St) St
  | [], st => .ok st
  | d :: rest, st =>
    match resolve_dir folder_paths root d.folder with
    | .error e => .error (e, st)
    | .ok dir =>
      let r := sanitize_name stream st.fs st.k d.name dir false
      let fpath := full_path r.1 dir false
      let st1 : St := { st with fs := st.fs.setFile fpath [], k := r.2 }
      match pyIn d.index content_json with
      | .error _ => .error (.typeError, st1)
      | .ok false => .error (.parserError msgMissingNote, st1)
      | .ok true =>
        match content_json with
        | .obj kvs =>
          match objLookup kvs d.index with
          | some (.str text) =>
            create_files_loop stream content_json folder_paths root rest
              { st1 with fs := st1.fs.setFile fpath text }
          | some _ => .error (.typeError, st1)
          | none => .error (.keyError d.index, st1)
        | _ => .error (.typeError, st1)

/-- Source `create_files`: create the folders, then access
`index_json['index']` (subscript: `TypeError` on a non-dict, `KeyError`
when absent) and hand it to `parse_csv`, whose `.split('^!')` raises
`AttributeError` on a non-string value; then write every note. -/
def create_files (stream : Nat → Fin 10) (index_json folders_json content_json : JVal)
    (folder_path : Str) (st : St) : Except (PErr × St) St :=
  match create_folders stream folders_json folder_path st with
  | .error e => .error e
  | .ok (folder_paths, st1) =>
    match index_json with
    | .obj kvs =>
      match objLookup kvs strIndexKey with
      | none => .error (.keyError strIndexKey, st1)
      | some (.str csv_string) =>
        match parse_csv csv_string with
        | .error e => .error (e, st1)
        | .ok files_index =>
          create_files_loop stream content_json folder_paths folder_path files_index st1
      | some _ => .error (.attrError, st1)
    | _ => .error (.typeError, st1)

/-- Source `parse_file`: extract the three records from the dump text
`raw` (the source reads `raw` from `file_path`) and export into
`file_path + "_parsed"`. -/
def parse_file (stream : Nat → Fin 10) (raw file_path : Str) (st : St) :
    Except (PErr × St) St :=
  match get_json_objects raw with
  | .error e => .error (e, st)
  | .ok (index_json, folders_json, content_json) =>
    create_files stream index_json folders_json content_json
      (file_path ++ "_parsed".data) st

/-! ### Rollback (source `cleanup`, lines 235-242, and the driver) -/

/-- Is `q` the path `root` itself or inside its tree? -/
def isUnder (root q : Str) : Bool := q == root || (root ++ ['/']).isPrefixOf q

/-- `shutil.rmtree`: remove the directory and everything below it. -/
def rmtree (fs : FS) (p : Str) : FS :=
  { dirs := fs.dirs.filter (fun d => !(isUnder p d))
  , files := fs.files.filter (fun f => !(isUnder p f.1)) }

/-- Source `cleanup`: remove the recorded `created_path` tree, if any. -/
def cleanup (st : St) : St :=
  if st.created_path = [] then st
  else if fsExists st.fs st.created_path then { st with fs := rmtree st.fs st.created_path }
  else st

/-- The driver (`__main__`, lines 249-262): run the export; on ANY raised
error — the script's own `FastNotepadParserError` or a bare exception such
as `KeyError` — call `cleanup` and surface the error. -/
def run_export (stream : Nat → Fin 10) (raw file_path : Str) (st : St) :
    Option PErr × St :=
  match parse_file stream raw file_path st with
  | .ok st' => (none, st')
  | .error (e, st') => (some e, cleanup st')

/-! ## Helper lemmas: association lists and the file-system model -/

theorem assocLast_append_same (m : List (Str × Str)) (k v : Str) :
    assocLast (m ++ [(k, v)]) k = some v := by
  simp [assocLast, List.filter_append]

theorem assocLast_append_other (m : List (Str × Str)) (k v k' : Str) (h : k' ≠ k) :
    assocLast (m ++ [(k, v)]) k' = assocLast m k' := by
  unfold assocLast
  rw [List.filter_append]
  have hnil : List.filter (fun q => decide (q.1 = k')) [(k, v)] = [] := by
    simp [Ne.symm h]
  rw [hnil, List.append_nil]

theorem fsExists_true_iff (fs : FS) (p : Str) : fsExists fs p = true ↔ p ∈ fs.paths := by
  simp [fsExists]

theorem fsExists_false_iff (fs : FS) (p : Str) : fsExists fs p = false ↔ p ∉ fs.paths := by
  simp [fsExists]

theorem mem_paths_mkdir (fs : FS) (p q : Str) :
    q ∈ (fs.mkdir p).paths ↔ q ∈ fs.paths ∨ q = p := by
  simp [FS.mkdir, FS.paths, List.mem_append]
  tauto

theorem map_fst_replace (files : List (Str × Str)) (p c : Str) :
    (files.map (fun q => if q.1 = p then (p, c) else q)).map Prod.fst
      = files.map Prod.fst := by
  induction files with
  | nil => rfl
  | cons a t ih =>
    by_cases h : a.1 = p <;> simp [h, ih]

theorem mem_paths_setFile (fs : FS) (p c q : Str) :
    q ∈ (fs.setFile p c).paths ↔ q ∈ fs.paths ∨ q = p := by
  unfold FS.setFile
  split
  · rename_i hmem
    simp only [FS.paths, map_fst_replace, List.mem_append]
    constructor
    · tauto
    · rintro ((h | h) | rfl)
      · tauto
      · tauto
      · right; exact hmem
  · simp [FS.paths, List.mem_append]
    tauto

theorem filter_map_replace_same (files : List (Str × Str)) (p c : Str) :
    ((files.map (fun q => if q.1 = p then (p, c) else q)).filter
        (fun q => decide (q.1 = p)))
      = (files.filter (fun q => decide (q.1 = p))).map (fun _ => (p, c)) := by
  induction files with
  | nil => rfl
  | cons a t ih =>
    by_cases h : a.1 = p <;> simp [h, ih]

theorem filter_map_replace_other (files : List (Str × Str)) (p c q : Str) (h : q ≠ p) :
    ((files.map (fun e => if e.1 = p then (p, c) else e)).filter
        (fun e => decide (e.1 = q)))
      = files.filter (fun e => decide (e.1 = q)) := by
  induction files with
  | nil => rfl
  | cons a t ih =>
    by_cases ha : a.1 = p
    · have h1 : (decide ((p, c).1 = q)) = false := by simp [Ne.symm h]
      have h2 : (decide (a.1 = q)) = false := by simp [ha, Ne.symm h]
      simp only [List.map_cons, if_pos ha, List.filter_cons, h1, h2, ih,
        Bool.false_eq_true, if_false]
    · simp only [List.map_cons, if_neg ha, List.filter_cons, ih]

theorem fileLookup_setFile_self (fs : FS) (p c : Str) :
    fileLookup (fs.setFile p c) p = some c := by
  unfold fileLookup FS.setFile
  split
  · rename_i hmem
    simp only [assocLast, filter_map_replace_same]
    obtain ⟨e, he, hfst⟩ := List.mem_map.mp hmem
    have hne : fs.files.filter (fun q => decide (q.1 = p)) ≠ [] := by
      intro hnil
      have : e ∈ fs.files.filter (fun q => decide (q.1 = p)) := by
        rw [List.mem_filter]
        exact ⟨he, by simp [hfst]⟩
      simp [hnil] at this
    obtain ⟨x, hx⟩ := Option.isSome_iff_exists.mp (List.getLast?_isSome.mpr hne)
    rw [List.getLast?_map, hx]
    rfl
  · exact assocLast_append_same _ _ _

theorem fileLookup_setFile_other (fs : FS) (p c q : Str) (h : q ≠ p) :
    fileLookup (fs.setFile p c) q = fileLookup fs q := by
  unfold fileLookup FS.setFile
  split
  · simp only [assocLast, filter_map_replace_other _ _ _ _ h]
  · exact assocLast_append_other _ _ _ _ h

theorem fileLookup_none_of_not_mem (fs : FS) (p : Str) (h : p ∉ fs.paths) :
    fileLookup fs p = none := by
  have hkeys : p ∉ fs.files.map Prod.fst := fun hm => h (by simp [FS.paths, hm])
  have : fs.files.filter (fun q => decide (q.1 = p)) = [] := by
    rw [List.filter_eq_nil_iff]
    intro a ha hpa
    exact hkeys (List.mem_map.mpr ⟨a, ha, by simpa using hpa⟩)
  simp [fileLookup, assocLast, this]

theorem mem_of_fileLookup_some (fs : FS) (p c : Str)
    (h : fileLookup fs p = some c) : p ∈ fs.paths := by
  by_contra hn
  rw [fileLookup_none_of_not_mem fs p hn] at h
  cases h

/-! ## Helper lemmas: the `gen_unique_name` loop terminates fresh -/

theorem digitChar_ne_slash : ∀ d : Fin 10, digitChar d ≠ '/' := by decide

theorem digitChar_allowed : ∀ d : Fin 10, isAllowedChar (digitChar d) = true := by decide

theorem slash_not_allowed : isAllowedChar '/' = false := by decide

theorem osPathJoin_snoc_length (folder name : Str) (c : Char) (hc : c ≠ '/') :
    (osPathJoin folder (name ++ [c])).length = (osPathJoin folder name).length + 1 := by
  unfold osPathJoin
  cases name with
  | nil =>
    have h1 : (([] : Str) ++ [c]).head? = some c := rfl
    have h2 : (([] : Str)).head? = none := rfl
    rw [h1, h2, if_neg (show ¬ (some c = some '/') by simp [hc]),
      if_neg (show ¬ ((none : Option Char) = some '/') by simp)]
    split <;> simp [List.length_append]
  | cons a t =>
    have h1 : ((a :: t) ++ [c]).head? = some a := rfl
    have h2 : (a :: t).head? = some a := rfl
    rw [h1, h2]
    by_cases ha : some a = some '/'
    · rw [if_pos ha, if_pos ha]
      simp [List.length_append]
    · rw [if_neg ha, if_neg ha]
      split <;> simp [List.length_append] <;> omega

theorem full_path_snoc_length (name folder : Str) (is_dir : Bool) (c : Char)
    (hc : c ≠ '/') :
    (full_path (name ++ [c]) folder is_dir).length
      = (full_path name folder is_dir).length + 1 := by
  unfold full_path
  cases is_dir with
  | true => simpa using osPathJoin_snoc_length folder name c hc
  | false =>
    simp only [Bool.false_eq_true, if_false, List.length_append,
      osPathJoin_snoc_length folder name c hc]
    omega

theorem le_foldr_max {l : List Nat} {a : Nat} (h : a ∈ l) : a ≤ l.foldr Nat.max 0 := by
  induction l with
  | nil => cases h
  | cons b t ih =>
    rcases List.mem_cons.mp h with rfl | h'
    · exact Nat.le_max_left _ _
    · exact le_trans (ih h') (Nat.le_max_right _ _)

theorem length_le_maxPathLen (fs : FS) (p : Str) (h : p ∈ fs.paths) :
    p.length ≤ maxPathLen fs :=
  le_foldr_max (List.mem_map.mpr ⟨p, h, rfl⟩)

theorem gen_unique_go_fresh (stream : Nat → Fin 10) (fs : FS) :
    ∀ (fuel k : Nat) (name folder : Str) (is_dir : Bool),
      maxPathLen fs < (full_path name folder is_dir).length + fuel →
      fsExists fs
        (full_path (gen_unique_go stream fs fuel k name folder is_dir).1 folder is_dir)
        = false := by
  intro fuel
  induction fuel with
  | zero =>
    intro k name folder is_dir h
    simp only [gen_unique_go]
    rw [fsExists_false_iff]
    intro hmem
    have := length_le_maxPathLen fs _ hmem
    omega
  | succ n ih =>
    intro k name folder is_dir h
    simp only [gen_unique_go]
    split
    · apply ih
      rw [full_path_snoc_length name folder is_dir _ (digitChar_ne_slash (stream k))]
      omega
    · rename_i hne
      simpa using hne

theorem gen_unique_name_fresh (stream : Nat → Fin 10) (fs : FS) (k : Nat)
    (name folder : Str) (is_dir : Bool) :
    fsExists fs
      (full_path (gen_unique_name stream fs k name folder is_dir).1 folder is_dir)
      = false := by
  apply gen_unique_go_fresh
  omega

theorem sanitize_name_fresh (stream : Nat → Fin 10) (fs : FS) (k : Nat)
    (name folder : Str) (is_dir : Bool) :
    fsExists fs
      (full_path (sanitize_name stream fs k name folder is_dir).1 folder is_dir)
      = false := by
  simp only [sanitize_name]
  split
  · exact gen_unique_name_fresh stream fs k _ folder is_dir
  · rename_i hne
    simpa using hne

theorem gen_unique_go_shape (stream : Nat → Fin 10) (fs : FS) :
    ∀ (fuel k : Nat) (name folder : Str) (is_dir : Bool),
      ∃ ds : Str,
        (gen_unique_go stream fs fuel k name folder is_dir).1 = name ++ ds
        ∧ ∀ c ∈ ds, ∃ d : Fin 10, c = digitChar d := by
  intro fuel
  induction fuel with
  | zero =>
    intro k name folder is_dir
    exact ⟨[], by simp [gen_unique_go]⟩
  | succ n ih =>
    intro k name folder is_dir
    simp only [gen_unique_go]
    split
    · obtain ⟨ds, hds, hall⟩ := ih (k + 1) (name ++ [digitChar (stream k)]) folder is_dir
      refine ⟨digitChar (stream k) :: ds, ?_, ?_⟩
      · rw [hds]; simp
      · intro c hc
        rcases List.mem_cons.mp hc with rfl | hc'
        · exact ⟨stream k, rfl⟩
        · exact hall c hc'
    · exact ⟨[], by simp⟩

theorem sanitize_name_shape (stream : Nat → Fin 10) (fs : FS) (k : Nat)
    (name folder : Str) (is_dir : Bool) :
    ∃ ds : Str,
      (sanitize_name stream fs k name folder is_dir).1 = sanitize_base name ++ ds
      ∧ ∀ c ∈ ds, ∃ d : Fin 10, c = digitChar d := by
  simp only [sanitize_name]
  split
  · exact gen_unique_go_shape stream fs _ k (sanitize_base name) folder is_dir
  · exact ⟨[], by simp⟩

/-! ## Helper lemmas: properties of `sanitize_base` -/

theorem mem_pyStrip {c : Char} {l : Str} (h : c ∈ pyStrip l) : c ∈ l := by
  unfold pyStrip at h
  rw [List.mem_reverse] at h
  have h2 := (List.dropWhile_sublist (l := (l.dropWhile Char.isWhitespace).reverse)
    (p := Char.isWhitespace)).subset h
  rw [List.mem_reverse] at h2
  exact (List.dropWhile_sublist (l := l) (p := Char.isWhitespace)).subset h2

theorem pyStrip_length_le (l : Str) : (pyStrip l).length ≤ l.length := by
  unfold pyStrip
  calc ((l.dropWhile Char.isWhitespace).reverse.dropWhile Char.isWhitespace).reverse.length
      = ((l.dropWhile Char.isWhitespace).reverse.dropWhile Char.isWhitespace).length := by
        simp
    _ ≤ (l.dropWhile Char.isWhitespace).reverse.length :=
        (List.dropWhile_sublist _).length_le
    _ = (l.dropWhile Char.isWhitespace).length := by simp
    _ ≤ l.length := (List.dropWhile_sublist _).length_le

theorem sanitize_base_cases (name : Str) :
    sanitize_base name = ['_'] ∨
    (sanitize_base name = pyStrip ((name.filter isAllowedChar).take FILE_NAME_MAX_LEN)
      ∧ toUpperStr (sanitize_base name) ∉ RESTRICTED_NAMES
      ∧ sanitize_base name ≠ []) := by
  simp only [sanitize_base]
  by_cases hr : toUpperStr (pyStrip ((name.filter isAllowedChar).take FILE_NAME_MAX_LEN))
      ∈ RESTRICTED_NAMES
  · left; rw [if_pos hr, if_pos rfl]
  · rw [if_neg hr]
    by_cases he : pyStrip ((name.filter isAllowedChar).take FILE_NAME_MAX_LEN) = []
    · left; rw [if_pos he]
    · right; rw [if_neg he]; exact ⟨rfl, hr, he⟩

theorem sanitize_base_allowed (name : Str) :
    ∀ c ∈ sanitize_base name, isAllowedChar c = true := by
  intro c hc
  rcases sanitize_base_cases name with h | ⟨h, _, _⟩ <;> rw [h] at hc
  · rcases List.mem_singleton.mp hc with rfl
    decide
  · have h2 := mem_pyStrip hc
    have h1 := List.take_subset FILE_NAME_MAX_LEN _ h2
    exact (List.mem_filter.mp h1).2

theorem sanitize_base_length (name : Str) :
    (sanitize_base name).length ≤ FILE_NAME_MAX_LEN := by
  rcases sanitize_base_cases name with h | ⟨h, _, _⟩ <;> rw [h]
  · decide
  · calc (pyStrip ((name.filter isAllowedChar).take FILE_NAME_MAX_LEN)).length
        ≤ ((name.filter isAllowedChar).take FILE_NAME_MAX_LEN).length :=
          pyStrip_length_le _
      _ ≤ FILE_NAME_MAX_LEN := by
          simp

theorem sanitize_base_ne_nil (name : Str) : sanitize_base name ≠ [] := by
  rcases sanitize_base_cases name with h | ⟨_, _, h⟩
  · rw [h]; simp
  · exact h

theorem sanitize_base_not_reserved (name : Str) :
    toUpperStr (sanitize_base name) ∉ RESTRICTED_NAMES := by
  rcases sanitize_base_cases name with h | ⟨_, h, _⟩
  · rw [h]; decide
  · exact h

/-! ## Helper lemmas: derived facts about `sanitize_name` results -/

theorem sanitize_name_allowed (stream : Nat → Fin 10) (fs : FS) (k : Nat)
    (name folder : Str) (is_dir : Bool) :
    ∀ c ∈ (sanitize_name stream fs k name folder is_dir).1, isAllowedChar c = true := by
  obtain ⟨ds, hds, hall⟩ := sanitize_name_shape stream fs k name folder is_dir
  rw [hds]
  intro c hc
  rcases List.mem_append.mp hc with h | h
  · exact sanitize_base_allowed name c h
  · obtain ⟨d, rfl⟩ := hall c h
    exact digitChar_allowed d

theorem sanitize_name_ne_nil (stream : Nat → Fin 10) (fs : FS) (k : Nat)
    (name folder : Str) (is_dir : Bool) :
    (sanitize_name stream fs k name folder is_dir).1 ≠ [] := by
  obtain ⟨ds, hds, -⟩ := sanitize_name_shape stream fs k name folder is_dir
  rw [hds]
  intro h
  exact sanitize_base_ne_nil name (List.append_eq_nil.mp h).1

theorem sanitize_name_no_slash (stream : Nat → Fin 10) (fs : FS) (k : Nat)
    (name folder : Str) (is_dir : Bool) :
    '/' ∉ (sanitize_name stream fs k name folder is_dir).1 := by
  intro h
  have := sanitize_name_allowed stream fs k name folder is_dir '/' h
  rw [slash_not_allowed] at this
  cases this

/-! ## Helper lemmas: `osPathJoin` and `full_path` as injections -/

theorem head?_ne_slash_of_not_mem {n : Str} (h : '/' ∉ n) : n.head? ≠ some '/' := by
  cases n with
  | nil => simp
  | cons a t =>
    simp only [List.head?_cons, ne_eq, Option.some.injEq]
    rintro rfl
    exact h (List.mem_cons_self _ _)

theorem osPathJoin_length_lt (folder n : Str) (hn : n ≠ [])
    (hh : n.head? ≠ some '/') : folder.length < (osPathJoin folder n).length := by
  unfold osPathJoin
  rw [if_neg hh]
  split
  · simp only [List.length_append]
    have := List.length_pos.mpr hn
    omega
  · simp only [List.length_append, List.length_cons]
    omega

theorem osPathJoin_ne_self (folder n : Str) (hn : n ≠ [])
    (hh : n.head? ≠ some '/') : osPathJoin folder n ≠ folder := by
  intro h
  have := osPathJoin_length_lt folder n hn hh
  rw [h] at this
  omega

theorem osPathJoin_inj (folder n1 n2 : Str) (h1 : '/' ∉ n1) (h2 : '/' ∉ n2)
    (h : osPathJoin folder n1 = osPathJoin folder n2) : n1 = n2 := by
  unfold osPathJoin at h
  rw [if_neg (head?_ne_slash_of_not_mem h1), if_neg (head?_ne_slash_of_not_mem h2)] at h
  split at h
  · exact List.append_cancel_left h
  · have := List.append_cancel_left h
    exact List.cons_injective.eq_iff.mp this

theorem full_path_inj (folder : Str) (b : Bool) (n1 n2 : Str)
    (h1 : '/' ∉ n1) (h2 : '/' ∉ n2)
    (h : full_path n1 folder b = full_path n2 folder b) : n1 = n2 := by
  unfold full_path at h
  cases b with
  | true => exact osPathJoin_inj folder n1 n2 h1 h2 (by simpa using h)
  | false =>
    simp only [Bool.false_eq_true, if_false] at h
    exact osPathJoin_inj folder n1 n2 h1 h2 (List.append_cancel_right h)

/-! ## The repeated-sanitize scenario of claim C3

`sanitize_chain` performs one `sanitize_name` call per entry of `calls`
(candidate name and file/directory flag) against one target directory,
materializing each returned name (creating the directory, resp. the file)
before the next call — exactly the populated-directory scenario the
uniqueness claim describes. -/

/-- Materialize a sanitized name: `os.mkdir` for directories, an
`open(..., 'w')` for files. -/
def materialize (fs : FS) (p : Str) (is_dir : Bool) : FS :=
  if is_dir then fs.mkdir p else fs.setFile p []

def sanitize_chain (stream : Nat → Fin 10) (folder : Str) :
    List (Str × Bool) → FS → Nat → List (Str × Bool)
  | [], _, _ => []
  | (nm, b) :: rest, fs, k =>
    let r := sanitize_name stream fs k nm folder b
    (r.1, b) :: sanitize_chain stream folder rest
        (materialize fs (full_path r.1 folder b) b) r.2

theorem fsExists_materialize_self (fs : FS) (p : Str) (b : Bool) :
    fsExists (materialize fs p b) p = true := by
  unfold materialize
  cases b with
  | true =>
    rw [if_pos rfl, fsExists_true_iff, mem_paths_mkdir]
    exact Or.inr rfl
  | false =>
    rw [if_neg (by simp), fsExists_true_iff, mem_paths_setFile]
    exact Or.inr rfl

theorem fsExists_materialize_mono (fs : FS) (p q : Str) (b : Bool)
    (h : fsExists fs q = true) : fsExists (materialize fs p b) q = true := by
  unfold materialize
  rw [fsExists_true_iff] at h
  cases b with
  | true =>
    rw [if_pos rfl, fsExists_true_iff, mem_paths_mkdir]
    exact Or.inl h
  | false =>
    rw [if_neg (by simp), fsExists_true_iff, mem_paths_setFile]
    exact Or.inl h

theorem sanitize_chain_avoids (stream : Nat → Fin 10) (folder : Str) :
    ∀ (calls : List (Str × Bool)) (fs : FS) (k : Nat) (p : Str),
      fsExists fs p = true →
      ∀ x ∈ sanitize_chain stream folder calls fs k,
        full_path x.1 folder x.2 ≠ p := by
  intro calls
  induction calls with
  | nil => intro fs k p _ x hx; cases hx
  | cons c rest ih =>
    intro fs k p h x hx
    obtain ⟨nm, b⟩ := c
    simp only [sanitize_chain] at hx
    rcases List.mem_cons.mp hx with rfl | hx'
    · intro heq
      have hfresh := sanitize_name_fresh stream fs k nm folder b
      rw [heq, h] at hfresh
      cases hfresh
    · exact ih _ _ p (fsExists_materialize_mono _ _ _ _ h) x hx'

theorem sanitize_chain_pairwise (stream : Nat → Fin 10) (folder : Str) :
    ∀ (calls : List (Str × Bool)) (fs : FS) (k : Nat),
      (sanitize_chain stream folder calls fs k).Pairwise
        (fun x y => full_path x.1 folder x.2 ≠ full_path y.1 folder y.2) := by
  intro calls
  induction calls with
  | nil => intro fs k; simp [sanitize_chain]
  | cons c rest ih =>
    intro fs k
    obtain ⟨nm, b⟩ := c
    simp only [sanitize_chain]
    refine List.Pairwise.cons ?_ (ih _ _)
    intro y hy
    have havoid := sanitize_chain_avoids stream folder rest _ _
      (full_path (sanitize_name stream fs k nm folder b).1 folder b)
      (fsExists_materialize_self _ _ _) y hy
    exact fun he => havoid he.symm

/-! ## Claim C2 -/

/-- Claim C2, counterexample to the claim as stated.  Two violations at
concrete inputs: (a) a 50-character name colliding with an existing file
gets a collision digit appended, producing a 51-character result, beyond
the claimed maximum length; (b) the non-reserved name `LPT` colliding with
an existing file and a random stream that picks `1` produces `LPT1`, which
IS a reserved device name. -/
theorem c2_sanitize_counterexample :
    FILE_NAME_MAX_LEN <
      ((sanitize_name (fun _ => (0 : Fin 10))
          ⟨[], [(full_path (List.replicate 50 'a') "d".data false, [])]⟩ 0
          (List.replicate 50 'a') "d".data false).1).length
    ∧ toUpperStr ((sanitize_name (fun _ => (1 : Fin 10))
          ⟨[], [(full_path "LPT".data "d".data false, [])]⟩ 0
          "LPT".data "d".data false).1) ∈ RESTRICTED_NAMES := by
  constructor <;> decide

/-- Claim C2, amended: the name returned by `sanitize_name` always consists
of allowed characters only and is never empty; and whenever no collision
suffix is needed — i.e. the deterministically sanitized base name does not
already exist in the target directory — it moreover has length at most 50
and is not a reserved device name.  (With a collision, appended random
digits can push the length past 50 and can turn a non-reserved name into a
reserved one, as the counterexample shows.) -/
theorem c2_sanitize_safe_amended (stream : Nat → Fin 10) (fs : FS) (k : Nat)
    (name folder : Str) (is_dir : Bool) :
    (∀ c ∈ (sanitize_name stream fs k name folder is_dir).1, isAllowedChar c = true)
    ∧ (sanitize_name stream fs k name folder is_dir).1 ≠ []
    ∧ (fsExists fs (full_path (sanitize_base name) folder is_dir) = false →
        (sanitize_name stream fs k name folder is_dir).1.length ≤ FILE_NAME_MAX_LEN
        ∧ toUpperStr (sanitize_name stream fs k name folder is_dir).1 ∉ RESTRICTED_NAMES) := by
  refine ⟨sanitize_name_allowed stream fs k name folder is_dir,
    sanitize_name_ne_nil stream fs k name folder is_dir, ?_⟩
  intro h
  have hres : (sanitize_name stream fs k name folder is_dir).1 = sanitize_base name := by
    simp only [sanitize_name]
    rw [if_neg (by simp [h])]
  rw [hres]
  exact ⟨sanitize_base_length name, sanitize_base_not_reserved name⟩

/-- Witness for C2 (amended), at the concrete input `"My Note?"` in an
empty directory (so the no-collision hypothesis of the conditional part
holds and all four properties follow). -/
theorem c2_sanitize_safe_amended_witness :
    (∀ c ∈ (sanitize_name (fun _ => (0 : Fin 10)) ⟨[], []⟩ 0
        "My Note?".data "out".data false).1, isAllowedChar c = true)
    ∧ (sanitize_name (fun _ => (0 : Fin 10)) ⟨[], []⟩ 0
        "My Note?".data "out".data false).1 ≠ []
    ∧ (sanitize_name (fun _ => (0 : Fin 10)) ⟨[], []⟩ 0
        "My Note?".data "out".data false).1.length ≤ FILE_NAME_MAX_LEN
    ∧ toUpperStr (sanitize_name (fun _ => (0 : Fin 10)) ⟨[], []⟩ 0
        "My Note?".data "out".data false).1 ∉ RESTRICTED_NAMES := by
  obtain ⟨h1, h2, h3⟩ := c2_sanitize_safe_amended (fun _ => (0 : Fin 10)) ⟨[], []⟩ 0
    "My Note?".data "out".data false
  obtain ⟨h4, h5⟩ := h3 (by decide)
  exact ⟨h1, h2, h4, h5⟩

/-! ## Claim C3 -/

/-- Claim C3, counterexample to the claim as stated: in the directory
`root`, sanitizing `"Work"` as a DIRECTORY name (materialized as
`root/Work`) and then sanitizing `"Work"` as a FILE name returns the same
name `Work` twice — the second call checks `root/Work.txt`, which does not
exist — so the returned names are not pairwise distinct. -/
theorem c3_names_collide_counterexample :
    (sanitize_chain (fun _ => (0 : Fin 10)) "root".data
        [("Work".data, true), ("Work".data, false)] ⟨["root".data], []⟩ 0)
      = [("Work".data, true), ("Work".data, false)]
    ∧ ¬ (sanitize_chain (fun _ => (0 : Fin 10)) "root".data
        [("Work".data, true), ("Work".data, false)] ⟨["root".data], []⟩ 0).Pairwise
        (fun x y => x.1 ≠ y.1) := by
  have heq : (sanitize_chain (fun _ => (0 : Fin 10)) "root".data
      [("Work".data, true), ("Work".data, false)] ⟨["root".data], []⟩ 0)
      = [("Work".data, true), ("Work".data, false)] := by decide
  refine ⟨heq, ?_⟩
  intro h
  rw [heq] at h
  exact (List.pairwise_cons.mp h).1 ("Work".data, false) (by simp) rfl

/-- Claim C3, amended: across repeated `sanitize_name` calls against one
directory, each returned name materialized before the next call, the
returned FULL PATHS (name joined to the directory, with the extension
dictated by the file/directory flag) are pairwise distinct; consequently
names returned for the same flag are pairwise distinct.  (Names for
different flags can coincide, as the counterexample shows, without any
path collision.)  Additionally every returned name's path does not exist
at the moment of its call. -/
theorem c3_unique_paths_amended (stream : Nat → Fin 10) (folder : Str)
    (calls : List (Str × Bool)) (fs : FS) (k : Nat) :
    ((sanitize_chain stream folder calls fs k).Pairwise
        (fun x y => full_path x.1 folder x.2 ≠ full_path y.1 folder y.2))
    ∧ ((sanitize_chain stream folder calls fs k).Pairwise
        (fun x y => x.2 = y.2 → x.1 ≠ y.1))
    ∧ (∀ (name : Str) (b : Bool),
        fsExists fs (full_path (sanitize_name stream fs k name folder b).1 folder b)
          = false) := by
  refine ⟨sanitize_chain_pairwise stream folder calls fs k, ?_, ?_⟩
  · refine (sanitize_chain_pairwise stream folder calls fs k).imp ?_
    intro x y hpath hflag hname
    exact hpath (by rw [hname, hflag])
  · intro name b
    exact sanitize_name_fresh stream fs k name folder b

/-! ## Helper lemmas: `parse_csv` and the effects of `create_folders` -/

theorem create_subfolders_effects (stream : Nat → Fin 10) (root : Str) :
    ∀ (lst : List Str) (st : St) (acc : FolderMap),
      (create_subfolders stream root lst st acc).2.fs.files = st.fs.files
      ∧ (create_subfolders stream root lst st acc).2.created_path = st.created_path
      ∧ (create_subfolders stream root lst st acc).2.fs.dirs.length
          = st.fs.dirs.length + lst.length := by
  intro lst
  induction lst with
  | nil => intro st acc; exact ⟨rfl, rfl, rfl⟩
  | cons fname rest ih =>
    intro st acc
    simp only [create_subfolders]
    obtain ⟨h1, h2, h3⟩ := ih
      { st with
          fs := st.fs.mkdir (full_path (sanitize_name stream st.fs st.k fname root true).1 root true)
          k := (sanitize_name stream st.fs st.k fname root true).2 }
      (acc ++ [(fname, full_path (sanitize_name stream st.fs st.k fname root true).1 root true)])
    refine ⟨h1, h2, ?_⟩
    rw [h3]
    simp [FS.mkdir, List.length_append]
    omega

theorem jStrLookup_some_elim (v : JVal) (k : Str) (s : Str)
    (h : jStrLookup v k = some s) :
    ∃ kvs, v = .obj kvs ∧ objLookup kvs k = some (.str s) := by
  unfold jStrLookup at h
  split at h
  · rename_i kvs
    refine ⟨kvs, rfl, ?_⟩
    split at h
    · rename_i s2 heq
      simp only [Option.some.injEq] at h
      rw [heq, h]
    · cases h
  · cases h

theorem create_folders_effects (stream : Nat → Fin 10) (fj : JVal) (root : Str)
    (st : St) (fmap : FolderMap) (st1 : St)
    (h : create_folders stream fj root st = .ok (fmap, st1)) :
    st1.fs.files = st.fs.files ∧ st1.created_path = root
    ∧ fsExists st.fs root = false
    ∧ ∃ fstr, jStrLookup fj strFoldersKey = some fstr
        ∧ st1.fs.dirs.length = st.fs.dirs.length + (splitOnNl fstr).length + 2 := by
  unfold create_folders at h
  split at h
  · cases h
  · rename_i hroot
    rw [Bool.not_eq_true] at hroot
    split at h
    case _ kvs =>
      revert h
      cases hj : objLookup kvs strFoldersKey with
      | none => intro h; cases h
      | some v =>
        cases v with
        | str fstr => ?_
        | num x => intro h; cases h
        | bool x => intro h; cases h
        | null => intro h; cases h
        | arr x => intro h; cases h
        | obj x => intro h; cases h
        intro h
        simp only [create_folder] at h
        obtain ⟨hfe, hcp, hdl⟩ := create_subfolders_effects stream root (splitOnNl fstr)
          { st with fs := st.fs.mkdir root, created_path := root } []
        set r := create_subfolders stream root (splitOnNl fstr)
          { st with fs := st.fs.mkdir root, created_path := root } [] with hr
        have hst1 : st1 =
            { r.2 with
                fs := r.2.fs.mkdir
                  (full_path (sanitize_name stream r.2.fs r.2.k TRASH_FOLDER_NAME root true).1 root true)
                k := (sanitize_name stream r.2.fs r.2.k TRASH_FOLDER_NAME root true).2 } := by
          cases h
          rfl
        have hmk1 : ({ st with fs := st.fs.mkdir root, created_path := root } : St).fs.files
            = st.fs.files := rfl
        have hmk2 : ({ st with fs := st.fs.mkdir root, created_path := root } : St).fs.dirs.length
            = st.fs.dirs.length + 1 := by
          simp [FS.mkdir]
        rw [hmk1] at hfe
        rw [hmk2] at hdl
        subst hst1
        refine ⟨by simpa [FS.mkdir] using hfe, by simpa using hcp, hroot, fstr, ?_, ?_⟩
        · simp only [jStrLookup, hj]
        · simp only [FS.mkdir, List.length_append, List.length_cons, List.length_nil]
          omega
    case _ => cases h

/-! ## Helper lemmas: rollback and error propagation -/

theorem isUnder_self (p : Str) : isUnder p p = true := by simp [isUnder]

theorem rmtree_removes (fs : FS) (p : Str) : fsExists (rmtree fs p) p = false := by
  rw [fsExists_false_iff]
  intro hmem
  unfold rmtree FS.paths at hmem
  rcases List.mem_append.mp hmem with h | h
  · have hf := (List.mem_filter.mp h).2
    rw [isUnder_self] at hf
    cases hf
  · obtain ⟨q, hq, hfst⟩ := List.mem_map.mp h
    have hf := (List.mem_filter.mp hq).2
    rw [hfst, isUnder_self] at hf
    cases hf

theorem cleanup_removes (st : St) (h : st.created_path ≠ []) :
    fsExists (cleanup st).fs st.created_path = false := by
  unfold cleanup
  rw [if_neg h]
  split
  · exact rmtree_removes st.fs st.created_path
  · rename_i hne
    simpa using hne

theorem cleanup_nothing (st : St) (h : st.created_path = []) : cleanup st = st := by
  unfold cleanup
  rw [if_pos h]

theorem create_files_loop_error_created (stream : Nat → Fin 10) (cj : JVal)
    (fmap : FolderMap) (root : Str) :
    ∀ (descs : List NoteDesc) (st : St) (e : PErr) (st' : St),
      create_files_loop stream cj fmap root descs st = .error (e, st') →
      st'.created_path = st.created_path := by
  intro descs
  induction descs with
  | nil => intro st e st' h; cases h
  | cons d rest ih =>
    intro st e st' h
    simp only [create_files_loop] at h
    repeat' split at h
    all_goals first
      | (simp only [Except.error.injEq, Prod.mk.injEq] at h
         obtain ⟨-, rfl⟩ := h
         rfl)
      | (have h2 := ih _ _ _ h; exact h2)

theorem create_folders_error_shape (stream : Nat → Fin 10) (fj : JVal) (root : Str)
    (st : St) (e : PErr) (st1 : St)
    (h : create_folders stream fj root st = .error (e, st1)) :
    (st1 = st ∧ fsExists st.fs root = true) ∨ st1.created_path = root := by
  unfold create_folders at h
  split at h
  · rename_i hex
    simp only [Except.error.injEq, Prod.mk.injEq] at h
    obtain ⟨-, rfl⟩ := h
    exact Or.inl ⟨rfl, hex⟩
  · repeat' split at h
    all_goals first
      | (simp only [Except.error.injEq, Prod.mk.injEq] at h
         obtain ⟨-, rfl⟩ := h
         exact Or.inr rfl)
      | cases h

theorem create_files_error_shape (stream : Nat → Fin 10) (ij fj cj : JVal)
    (root : Str) (st : St) (e : PErr) (st' : St)
    (h : create_files stream ij fj cj root st = .error (e, st')) :
    (st' = st ∧ fsExists st.fs root = true) ∨ st'.created_path = root := by
  unfold create_files at h
  split at h
  · rename_i p heq
    simp only [Except.error.injEq] at h
    rw [h] at heq
    exact create_folders_error_shape stream fj root st e st' heq
  · rename_i fmap st1 heq
    have hst1 := (create_folders_effects stream fj root st fmap st1 heq).2.1
    repeat' split at h
    all_goals first
      | (simp only [Except.error.injEq, Prod.mk.injEq] at h
         obtain ⟨-, rfl⟩ := h
         exact Or.inr hst1)
      | cases h
      | (have h2 := create_files_loop_error_created stream cj fmap root _ st1 e st' h
         rw [hst1] at h2
         exact Or.inr h2)

theorem run_export_rollback (stream : Nat → Fin 10) (raw input : Str) (st : St)
    (e : PErr) (st' : St)
    (hcp : st.created_path = [])
    (hroot : fsExists st.fs (input ++ "_parsed".data) = false)
    (hrun : run_export stream raw input st = (some e, st')) :
    fsExists st'.fs (input ++ "_parsed".data) = false := by
  have hrne : (input ++ "_parsed".data) ≠ [] := by
    intro hn
    have := congrArg List.length hn
    simp [List.length_append] at this
  unfold run_export at hrun
  cases hp : parse_file stream raw input st with
  | ok st2 =>
    rw [hp] at hrun
    simp at hrun
  | error p =>
    obtain ⟨e2, st2⟩ := p
    rw [hp] at hrun
    simp only [Prod.mk.injEq, Option.some.injEq] at hrun
    obtain ⟨-, rfl⟩ := hrun
    unfold parse_file at hp
    revert hp
    cases hj : get_json_objects raw with
    | error e3 =>
      intro hp
      simp only [Except.error.injEq, Prod.mk.injEq] at hp
      obtain ⟨-, rfl⟩ := hp
      rw [cleanup_nothing st hcp]
      exact hroot
    | ok t =>
      obtain ⟨ij, fj, cj⟩ := t
      intro hp
      rcases create_files_error_shape stream ij fj cj (input ++ "_parsed".data)
          st e2 st2 hp with ⟨rfl, hex⟩ | hcp2
      · rw [hex] at hroot
        cases hroot
      · have hclean := cleanup_removes st2 (by rw [hcp2]; exact hrne)
        rw [hcp2] at hclean
        exact hclean

theorem parseCsvRows_mem :
    ∀ (rows : List (List Str)) (descs : List NoteDesc),
      parseCsvRows rows = .ok descs →
      ∀ d ∈ descs, ∃ r ∈ rows, r.length = CSV_ROW_LENGTH ∧ d = rowToDesc r := by
  intro rows
  induction rows with
  | nil =>
    intro descs h d hd
    simp only [parseCsvRows, Except.ok.injEq] at h
    subst h
    cases hd
  | cons r rest ih =>
    intro descs h d hd
    simp only [parseCsvRows] at h
    split at h
    · obtain ⟨x, hx, h10, hdx⟩ := ih _ h d hd
      exact ⟨x, List.mem_cons_of_mem _ hx, h10, hdx⟩
    · split at h
      · cases h
      · rename_i h0 hlen
        split at h
        · cases h
        · rename_i tl heq
          simp only [Except.ok.injEq] at h
          subst h
          rcases List.mem_cons.mp hd with rfl | hd'
          · exact ⟨r, List.mem_cons_self _ _, by omega, rfl⟩
          · obtain ⟨x, hx, h10, hdx⟩ := ih _ heq d hd'
            exact ⟨x, List.mem_cons_of_mem _ hx, h10, hdx⟩

/-! ## Claim C5 -/

/-- Claim C5, counterexample to the claim as stated: a note descriptor
whose non-empty folder label (`Ghost`) is absent from the folder map makes
the export loop fail with a Python `KeyError` from the dictionary
subscript `folder_paths[...]` — NOT with the `MalformedIndex`
`FastNotepadParserError` the claim names (the source never checks the
label; the spec itself flags this path as inferred). -/
theorem c5_missing_folder_keyerror_counterexample :
    create_files_loop (fun _ => (0 : Fin 10)) (JVal.obj []) [] "out".data
        [⟨"_1".data, "Ghost".data, "N".data⟩] ⟨⟨["out".data], []⟩, "out".data, 0⟩
      = .error (.keyError "Ghost".data, ⟨⟨["out".data], []⟩, "out".data, 0⟩)
    ∧ PErr.keyError "Ghost".data ≠ PErr.parserError msgWrongIndex
    ∧ (∀ msg : Str, PErr.keyError "Ghost".data ≠ PErr.parserError msg) := by
  refine ⟨by rfl, by decide, ?_⟩
  intro msg h
  cases h

/-- Claim C5, amended: during export of a descriptor `d`, (a) the content
key looked up in the content record is field 0 of the pseudo-CSV row
prefixed with an underscore, (b) a content record that does not contain
that key (Python `in` returning `False`) raises `MissingContent`
(`"Error: Couldn't find note's text!"`), (c) a non-empty folder label
absent from the folder map raises a Python `KeyError` — not the
`MalformedIndex` parser error — which the driver's catch-all handler still
routes through rollback, and (d) after any failing export started from a
fresh state, the root output directory is absent from the final file
system (rollback removed it, or it was never created). -/
theorem c5_missing_refs_amended (stream : Nat → Fin 10) (cj : JVal)
    (fmap : FolderMap) (root : Str) (d : NoteDesc) (rest : List NoteDesc) (st : St) :
    ((∀ (s : Str) (rows : List (List Str)) (descs : List NoteDesc),
        csvReadAll (splitRows s) = .ok rows → parse_csv s = .ok descs →
        ∀ d' ∈ descs, ∃ r ∈ rows, r.length = CSV_ROW_LENGTH
          ∧ d'.index = '_' :: r.getD CSV_COL_FILE_INDEX [])
    ∧ (d.folder ≠ [] → fmLookup fmap d.folder = none →
        create_files_loop stream cj fmap root (d :: rest) st
          = .error (.keyError d.folder, st))
    ∧ (∀ dir : Str, resolve_dir fmap root d.folder = .ok dir →
        pyIn d.index cj = .ok false →
        create_files_loop stream cj fmap root (d :: rest) st
          = .error (.parserError msgMissingNote,
              { st with
                  fs := st.fs.setFile
                    (full_path (sanitize_name stream st.fs st.k d.name dir false).1 dir false) []
                  k := (sanitize_name stream st.fs st.k d.name dir false).2 }))
    ∧ (∀ (raw input : Str) (e : PErr) (st' : St),
        st.created_path = [] →
        fsExists st.fs (input ++ "_parsed".data) = false →
        run_export stream raw input st = (some e, st') →
        fsExists st'.fs (input ++ "_parsed".data) = false)) := by
  refine ⟨?_, ?_, ?_, ?_⟩
  · intro s rows descs hrd hok d' hd'
    unfold parse_csv at hok
    rw [hrd] at hok
    obtain ⟨r, hr, h10, hdr⟩ := parseCsvRows_mem rows descs hok d' hd'
    exact ⟨r, hr, h10, by rw [hdr]; rfl⟩
  · intro hne hnone
    simp only [create_files_loop, resolve_dir, if_neg hne, hnone]
  · intro dir hdir hnone
    simp only [create_files_loop, hdir, hnone]
  · intro raw input e st' hcp hroot hrun
    exact run_export_rollback stream raw input st e st' hcp hroot hrun

/-- Witness for C5 (amended) at concrete inputs: the parsed descriptor of
row `1;;;;;;;;;N` carries content key `_1`; a missing folder label yields
`KeyError`; a missing content key yields the `MissingContent` error with
the note's file already created empty; a failing run from a fresh state
leaves no root directory. -/
theorem c5_missing_refs_amended_witness :
    (∃ r ∈ [["1".data, [], [], [], [], [], [], [], [], "N".data]],
        r.length = CSV_ROW_LENGTH
        ∧ (⟨"_1".data, [], "N".data⟩ : NoteDesc).index = '_' :: r.getD CSV_COL_FILE_INDEX [])
    ∧ create_files_loop (fun _ => (0 : Fin 10)) (JVal.obj []) [] "out".data
        [⟨"_1".data, "Ghost".data, "N".data⟩] ⟨⟨["out".data], []⟩, "out".data, 0⟩
        = .error (.keyError "Ghost".data, ⟨⟨["out".data], []⟩, "out".data, 0⟩)
    ∧ create_files_loop (fun _ => (0 : Fin 10)) (JVal.obj []) [] "out".data
        [⟨"_9".data, [], "N".data⟩] ⟨⟨["out".data], []⟩, "out".data, 0⟩
        = .error (.parserError msgMissingNote,
            ⟨⟨["out".data], [("out/N.txt".data, [])]⟩, "out".data, 0⟩)
    ∧ fsExists (⟨[], []⟩ : FS) ("f".data ++ "_parsed".data) = false := by
  refine ⟨?_, ?_, ?_, ?_⟩
  · exact (c5_missing_refs_amended (fun _ => (0 : Fin 10)) (JVal.obj []) [] "out".data
      ⟨"_1".data, "Ghost".data, "N".data⟩ [] ⟨⟨["out".data], []⟩, "out".data, 0⟩).1
      "1;;;;;;;;;N".data [["1".data, [], [], [], [], [], [], [], [], "N".data]]
      [⟨"_1".data, [], "N".data⟩] (by rfl) (by rfl)
      ⟨"_1".data, [], "N".data⟩ (by simp)
  · exact (c5_missing_refs_amended (fun _ => (0 : Fin 10)) (JVal.obj []) [] "out".data
      ⟨"_1".data, "Ghost".data, "N".data⟩ [] ⟨⟨["out".data], []⟩, "out".data, 0⟩).2.1
      (by decide) (by rfl)
  · exact (c5_missing_refs_amended (fun _ => (0 : Fin 10)) (JVal.obj []) [] "out".data
      ⟨"_9".data, [], "N".data⟩ [] ⟨⟨["out".data], []⟩, "out".data, 0⟩).2.2.1
      "out".data (by rfl) (by rfl)
  · exact (c5_missing_refs_amended (fun _ => (0 : Fin 10)) (JVal.obj []) [] "out".data
      ⟨"_1".data, "Ghost".data, "N".data⟩ [] ⟨⟨[], []⟩, [], 0⟩).2.2.2
      "x".data "f".data (.parserError msgCouldntFind) ⟨⟨[], []⟩, [], 0⟩
      (by rfl) (by rfl) (by rfl)

/-! ## Claim C6 -/

/-- Claim C6: if the output root `<input>_parsed` already exists when the
export reaches folder creation (the dump itself extracted fine), the run
fails with the `RootAlreadyExists` error
(`Error: Folder "<root>" already exists!`) and the final state is exactly
the initial state: the existing directory is not overwritten and no new
directory or file is created (the rollback global was never set, so
cleanup touches nothing). -/
theorem c6_root_already_exists (stream : Nat → Fin 10) (raw input : Str) (st : St)
    (ij fj cj : JVal)
    (hjson : get_json_objects raw = .ok (ij, fj, cj))
    (hex : fsExists st.fs (input ++ "_parsed".data) = true)
    (hcp : st.created_path = []) :
    run_export stream raw input st
      = (some (.parserError (msgFolderExists (input ++ "_parsed".data))), st) := by
  simp only [run_export, parse_file, create_files, create_folders, hjson, hex,
    if_true, cleanup_nothing st hcp]

/-- Witness for C6: a well-formed dump exported next to an already-existing
`f_parsed` directory. -/
theorem c6_root_already_exists_witness :
    run_export (fun _ => (0 : Fin 10))
        "\x7b\x22index\x22:\x22\x22\x7d\x7b[!*|@]\x7d\x7b\x22folders\x22:\x22\x22\x7d\x7b[!*|@]\x7d\x7b\x7d".data
        "f".data ⟨⟨["f_parsed".data], []⟩, [], 0⟩
      = (some (.parserError (msgFolderExists ("f".data ++ "_parsed".data))),
          ⟨⟨["f_parsed".data], []⟩, [], 0⟩) :=
  c6_root_already_exists (fun _ => (0 : Fin 10))
    "\x7b\x22index\x22:\x22\x22\x7d\x7b[!*|@]\x7d\x7b\x22folders\x22:\x22\x22\x7d\x7b[!*|@]\x7d\x7b\x7d".data
    "f".data ⟨⟨["f_parsed".data], []⟩, [], 0⟩
    (JVal.obj [(strIndexKey, JVal.str [])]) (JVal.obj [(strFoldersKey, JVal.str [])])
    (JVal.obj [])
    (by rfl) (by rfl) (by rfl)

/-! ## Claim C7 -/

theorem check_json_objects_error (i f : JVal) (e : PErr)
    (h : check_json_objects i f = .error e) : e = .typeError := by
  unfold check_json_objects at h
  repeat' split at h
  all_goals first
    | (simp only [Except.error.injEq] at h; exact h.symm)
    | cases h

/-- Claim C7, counterexample.  Four concrete dumps against the claim as
stated: (1,2) a dump with no opening brace (marker-search failure) and
(3-6) a dump whose markers and JSON decode fine but whose index record
lacks the `index` key (key-validation failure) raise the SAME message, so
the error does not name the failing stage; (7) a folders slice that is the
JSON list `["folders"]` — not a structured map — makes extraction SUCCEED,
because Python's `in` is list membership there; (8) a folders slice `5`
raises a `TypeError` from `check_json_objects`, not a `MalformedDump`
parser error. -/
theorem c7_same_message_counterexample :
    get_json_objects "no markers here".data = .error (.parserError msgCouldntFind)
    ∧ findSub "no markers here".data [lbrace] = none
    ∧ get_json_objects
        "\x7b\x22a\x22:\x22b\x22\x7d\x7b[!*|@]\x7d\x7b\x22folders\x22:\x22\x22\x7d\x7b[!*|@]\x7d\x7b\x22x\x22:\x22y\x22\x7d".data
      = .error (.parserError msgCouldntFind)
    ∧ findSub
        "\x7b\x22a\x22:\x22b\x22\x7d\x7b[!*|@]\x7d\x7b\x22folders\x22:\x22\x22\x7d\x7b[!*|@]\x7d\x7b\x22x\x22:\x22y\x22\x7d".data
        [lbrace] = some 0
    ∧ json_loads (strSlice
        "\x7b\x22a\x22:\x22b\x22\x7d\x7b[!*|@]\x7d\x7b\x22folders\x22:\x22\x22\x7d\x7b[!*|@]\x7d\x7b\x22x\x22:\x22y\x22\x7d".data
        0 9) = some (JVal.obj [("a".data, JVal.str "b".data)])
    ∧ check_json_objects (JVal.obj [("a".data, JVal.str "b".data)])
        (JVal.obj [(strFoldersKey, JVal.str [])]) = .ok false
    ∧ get_json_objects
        "\x7b\x22index\x22:\x22\x22\x7d\x7b[!*|@]\x7d[\x22folders\x22]\x7b[!*|@]\x7d\x7b\x7d".data
      = .ok (JVal.obj [(strIndexKey, JVal.str [])],
          JVal.arr [JVal.str strFoldersKey], JVal.obj [])
    ∧ get_json_objects
        "\x7b\x22index\x22:\x22\x22\x7d\x7b[!*|@]\x7d5\x7b[!*|@]\x7d\x7b\x7d".data
      = .error .typeError :=
  ⟨by rfl, by rfl, by rfl, by rfl, by rfl, by rfl, by rfl, by rfl⟩

/-- Claim C7, amended: extraction is a pure function of the raw dump text.
It succeeds exactly when the slices bounded by the first `{`, the first
divider occurrence and the last divider occurrence all decode as JSON
values (of any shape) and the key validation passes, returning precisely
those three decoded values; the key validation is Python's `in` — dict-key
membership, list-element membership, substring test on strings — with
`"index"` checked first and the folders check short-circuited when it
fails, and it raises a `TypeError` (outside the parser-error taxonomy) on
a non-container record.  Every other failure raises the parser error with
one generic message (the JSON-load variant appends the decode detail) that
does NOT name which stage failed: marker-search failure and key-validation
failure share it verbatim, see the counterexample. -/
theorem c7_extraction_amended (raw : Str) :
    (∀ t : JVal × JVal × JVal, get_json_objects raw = .ok t ↔
      (∃ a b c, findSub raw [lbrace] = some a
        ∧ findSub raw JSON_OBJECTS_DIVIDER = some b
        ∧ rfindSub raw JSON_OBJECTS_DIVIDER = some c
        ∧ json_loads (strSlice raw a b) = some t.1
        ∧ json_loads (strSlice raw (b + JSON_OBJECTS_DIVIDER.length) c) = some t.2.1
        ∧ json_loads (raw.drop (c + JSON_OBJECTS_DIVIDER.length)) = some t.2.2
        ∧ check_json_objects t.1 t.2.1 = .ok true))
    ∧ (∀ e, get_json_objects raw = .error e →
        e = .parserError msgCouldntFind ∨ e = .parserError msgJsonLoad
          ∨ e = .typeError) := by
  constructor
  · intro t
    constructor
    · intro h
      unfold get_json_objects at h
      split at h
      · cases h
      · rename_i a ha
        split at h
        · cases h
        · rename_i b hb
          split at h
          · cases h
          · rename_i c hc
            simp only [] at h
            split at h
            · rename_i ij fj cj hp1 hp2 hp3
              split at h
              · cases h
              · rename_i hchk
                simp only [Except.ok.injEq] at h
                subst h
                exact ⟨a, b, c, ha, hb, hc, hp1, hp2, hp3, hchk⟩
              · cases h
            · cases h
    · rintro ⟨a, b, c, ha, hb, hc, hp1, hp2, hp3, hchk⟩
      unfold get_json_objects
      simp only [ha, hb, hc, hp1, hp2, hp3, hchk]
  · intro e he
    unfold get_json_objects at he
    split at he
    · simp only [Except.error.injEq] at he
      exact Or.inl he.symm
    · split at he
      · simp only [Except.error.injEq] at he
        exact Or.inl he.symm
      · split at he
        · simp only [Except.error.injEq] at he
          exact Or.inl he.symm
        · simp only [] at he
          split at he
          · split at he
            · rename_i e2 hchk
              simp only [Except.error.injEq] at he
              rw [he] at hchk
              exact Or.inr (Or.inr (check_json_objects_error _ _ _ hchk))
            · cases he
            · simp only [Except.error.injEq] at he
              exact Or.inl he.symm
          · simp only [Except.error.injEq] at he
            exact Or.inr (Or.inl he.symm)

/-- Witness for C7 (amended): the well-formed dump
`{"index":""}·DIV·{"folders":""}·DIV·{}` extracts to its three decoded
records (slices at positions 0, 12 and 34), and the extraction error on
the marker-free dump `x` is one of the three possible error classes. -/
theorem c7_extraction_amended_witness :
    get_json_objects
        "\x7b\x22index\x22:\x22\x22\x7d\x7b[!*|@]\x7d\x7b\x22folders\x22:\x22\x22\x7d\x7b[!*|@]\x7d\x7b\x7d".data
      = .ok (JVal.obj [(strIndexKey, JVal.str [])],
          JVal.obj [(strFoldersKey, JVal.str [])], JVal.obj [])
    ∧ (PErr.parserError msgCouldntFind = .parserError msgCouldntFind
        ∨ PErr.parserError msgCouldntFind = .parserError msgJsonLoad
        ∨ PErr.parserError msgCouldntFind = .typeError) := by
  constructor
  · exact ((c7_extraction_amended
      "\x7b\x22index\x22:\x22\x22\x7d\x7b[!*|@]\x7d\x7b\x22folders\x22:\x22\x22\x7d\x7b[!*|@]\x7d\x7b\x7d".data).1
      (JVal.obj [(strIndexKey, JVal.str [])],
        JVal.obj [(strFoldersKey, JVal.str [])], JVal.obj [])).mpr
      ⟨0, 12, 34, by rfl, by rfl, by rfl, by rfl, by rfl, by rfl, by rfl⟩
  · exact (c7_extraction_amended "x".data).2 (.parserError msgCouldntFind) (by rfl)

/-! ## Claim C9 -/

/-- Claim C9: when a note's content key is absent from the content record,
the `MissingContent` error is raised only after the destination file has
been opened for writing: the error state contains the note's file, empty,
at its freshly chosen (previously non-existing) `.txt` path inside the
destination directory. -/
theorem c9_empty_file_on_missing_content (stream : Nat → Fin 10) (cj : JVal)
    (fmap : FolderMap) (root dir : Str) (d : NoteDesc) (rest : List NoteDesc) (st : St)
    (hdir : resolve_dir fmap root d.folder = .ok dir)
    (hkey : pyIn d.index cj = .ok false) :
    create_files_loop stream cj fmap root (d :: rest) st
      = .error (.parserError msgMissingNote,
          { st with
              fs := st.fs.setFile
                (full_path (sanitize_name stream st.fs st.k d.name dir false).1 dir false) []
              k := (sanitize_name stream st.fs st.k d.name dir false).2 })
    ∧ fileLookup
        (st.fs.setFile
          (full_path (sanitize_name stream st.fs st.k d.name dir false).1 dir false) [])
        (full_path (sanitize_name stream st.fs st.k d.name dir false).1 dir false)
      = some []
    ∧ fsExists st.fs
        (full_path (sanitize_name stream st.fs st.k d.name dir false).1 dir false)
      = false := by
  refine ⟨?_, ?_, ?_⟩
  · simp only [create_files_loop, hdir, hkey]
  · exact fileLookup_setFile_self _ _ _
  · exact sanitize_name_fresh stream st.fs st.k d.name dir false

/-- Witness for C9: a descriptor with content key `_9`, absent from the
content record; the failing state holds the empty file `out/N.txt`. -/
theorem c9_empty_file_on_missing_content_witness :
    create_files_loop (fun _ => (0 : Fin 10))
        (JVal.obj [("_1".data, JVal.str "hi".data)]) [] "out".data
        [⟨"_9".data, [], "N".data⟩] ⟨⟨["out".data], []⟩, "out".data, 0⟩
      = .error (.parserError msgMissingNote,
          ⟨⟨["out".data], [("out/N.txt".data, [])]⟩, "out".data, 0⟩)
    ∧ fileLookup (⟨["out".data], [("out/N.txt".data, [])]⟩ : FS) "out/N.txt".data = some []
    ∧ fsExists (⟨["out".data], []⟩ : FS) "out/N.txt".data = false := by
  have h := c9_empty_file_on_missing_content (fun _ => (0 : Fin 10))
    (JVal.obj [("_1".data, JVal.str "hi".data)]) [] "out".data "out".data
    ⟨"_9".data, [], "N".data⟩ [] ⟨⟨["out".data], []⟩, "out".data, 0⟩
    (by rfl) (by rfl)
  exact h

/-! ## Claim C8 -/

/-- Claim C8: destination routing of the two special folder labels.  The
empty label routes a note directly into the root output directory; the
single-space sentinel label routes it into the trash subdirectory — a
directory named by sanitizing `Recycle-bin` (possibly with appended
collision digits) created under the root, recorded in the folder map under
the sentinel key, and distinct from the root itself. -/
theorem c8_folder_routing (stream : Nat → Fin 10) (fj : JVal) (root : Str)
    (st : St) (fmap : FolderMap) (st1 : St)
    (hok : create_folders stream fj root st = .ok (fmap, st1)) :
    resolve_dir fmap root [] = .ok root
    ∧ ∃ ds : Str, (∀ c ∈ ds, ∃ d : Fin 10, c = digitChar d)
        ∧ fmLookup fmap TRASH_FOLDER_CSV_NAME
            = some (osPathJoin root (TRASH_FOLDER_NAME ++ ds))
        ∧ resolve_dir fmap root TRASH_FOLDER_CSV_NAME
            = .ok (osPathJoin root (TRASH_FOLDER_NAME ++ ds))
        ∧ osPathJoin root (TRASH_FOLDER_NAME ++ ds) ∈ st1.fs.dirs
        ∧ osPathJoin root (TRASH_FOLDER_NAME ++ ds) ≠ root := by
  refine ⟨rfl, ?_⟩
  unfold create_folders at hok
  split at hok
  · cases hok
  · split at hok
    case _ kvs =>
      revert hok
      cases objLookup kvs strFoldersKey with
      | none => intro hok; cases hok
      | some v =>
      cases v with
      | str fstr => ?_
      | num x => intro hok; cases hok
      | bool x => intro hok; cases hok
      | null => intro hok; cases hok
      | arr x => intro hok; cases hok
      | obj x => intro hok; cases hok
      intro hok
      simp only [create_folder, Except.ok.injEq, Prod.mk.injEq] at hok
      obtain ⟨hfm, hst⟩ := hok
      set r := create_subfolders stream root (splitOnNl fstr)
        { st with fs := st.fs.mkdir root, created_path := root } [] with hr
      obtain ⟨ds, hds, hdig⟩ :=
        sanitize_name_shape stream r.2.fs r.2.k TRASH_FOLDER_NAME root true
      have hbase : sanitize_base TRASH_FOLDER_NAME = TRASH_FOLDER_NAME := by decide
      rw [hbase] at hds
      have hfull : full_path (sanitize_name stream r.2.fs r.2.k TRASH_FOLDER_NAME root true).1
          root true = osPathJoin root (TRASH_FOLDER_NAME ++ ds) := by
        rw [full_path, if_pos rfl, hds]
      have hhead : (TRASH_FOLDER_NAME ++ ds).head? = some 'R' := rfl
      refine ⟨ds, hdig, ?_, ?_, ?_, ?_⟩
      · rw [← hfm, ← hfull]
        exact assocLast_append_same _ _ _
      · unfold resolve_dir
        rw [if_neg (by decide), ← hfm, ← hfull]
        rw [show fmLookup (r.1 ++ [(TRASH_FOLDER_CSV_NAME,
            full_path (sanitize_name stream r.2.fs r.2.k TRASH_FOLDER_NAME root true).1 root true)])
            TRASH_FOLDER_CSV_NAME
          = some (full_path (sanitize_name stream r.2.fs r.2.k TRASH_FOLDER_NAME root true).1 root true)
          from assocLast_append_same _ _ _]
      · rw [← hst, ← hfull]
        simp [FS.mkdir]
      · exact osPathJoin_ne_self root (TRASH_FOLDER_NAME ++ ds)
          (by simp [TRASH_FOLDER_NAME]) (by rw [hhead]; decide)
    case _ => cases hok

/-- Witness for C8: concrete folders record with one folder `Work`. -/
theorem c8_folder_routing_witness :
    resolve_dir [("Work".data, "out/Work".data),
        (TRASH_FOLDER_CSV_NAME, "out/Recycle-bin".data)] "out".data [] = .ok "out".data
    ∧ ∃ ds : Str, (∀ c ∈ ds, ∃ d : Fin 10, c = digitChar d)
        ∧ fmLookup [("Work".data, "out/Work".data),
            (TRASH_FOLDER_CSV_NAME, "out/Recycle-bin".data)] TRASH_FOLDER_CSV_NAME
            = some (osPathJoin "out".data (TRASH_FOLDER_NAME ++ ds))
        ∧ resolve_dir [("Work".data, "out/Work".data),
            (TRASH_FOLDER_CSV_NAME, "out/Recycle-bin".data)] "out".data TRASH_FOLDER_CSV_NAME
            = .ok (osPathJoin "out".data (TRASH_FOLDER_NAME ++ ds))
        ∧ osPathJoin "out".data (TRASH_FOLDER_NAME ++ ds)
            ∈ (⟨⟨["out".data, "out/Work".data, "out/Recycle-bin".data], []⟩,
                "out".data, 0⟩ : St).fs.dirs
        ∧ osPathJoin "out".data (TRASH_FOLDER_NAME ++ ds) ≠ "out".data :=
  c8_folder_routing (fun _ => (0 : Fin 10))
    (JVal.obj [(strFoldersKey, JVal.str "Work".data)]) "out".data
    ⟨⟨[], []⟩, [], 0⟩
    [("Work".data, "out/Work".data), (TRASH_FOLDER_CSV_NAME, "out/Recycle-bin".data)]
    ⟨⟨["out".data, "out/Work".data, "out/Recycle-bin".data], []⟩, "out".data, 0⟩
    (by rfl)

/-! ## Claim C10 -/

/-- Claim C10: `create_folders` creates exactly one subdirectory per
newline-split segment of the folders string plus the trash folder (and the
root itself): the directory count grows by `segments + 2`.  When the
folders string is empty the split still yields one empty label, so (in a
file system not already holding a `<root>/_` path) a subdirectory with the
sanitized name `_` is created under the root and recorded in the folder
map under the empty-string label — even though notes with an empty folder
label resolve to the root itself, not to that subdirectory. -/
theorem c10_create_folders_count (stream : Nat → Fin 10) (fj : JVal) (root : Str)
    (st : St) (fmap : FolderMap) (st1 : St) (fstr : Str)
    (hf : jStrLookup fj strFoldersKey = some fstr)
    (hok : create_folders stream fj root st = .ok (fmap, st1)) :
    st1.fs.dirs.length = st.fs.dirs.length + (splitOnNl fstr).length + 2
    ∧ (fstr = [] →
        fsExists st.fs (full_path ['_'] root true) = false →
        fmLookup fmap [] = some (full_path ['_'] root true)
        ∧ full_path ['_'] root true ∈ st1.fs.dirs
        ∧ resolve_dir fmap root [] = .ok root) := by
  constructor
  · obtain ⟨-, -, -, fstr', hf', hlen⟩ := create_folders_effects stream fj root st fmap st1 hok
    rw [hf] at hf'
    cases hf'
    exact hlen
  · intro h0 hus
    subst h0
    obtain ⟨kvs, rfl, hobj⟩ := jStrLookup_some_elim fj strFoldersKey [] hf
    unfold create_folders at hok
    split at hok
    · cases hok
    · rename_i hroot
      simp only [hobj] at hok
      have hbase : sanitize_base ([] : Str) = ['_'] := by decide
      have hne : fsExists ({ st with fs := st.fs.mkdir root, created_path := root } : St).fs
          (full_path ['_'] root true) = false := by
        rw [fsExists_false_iff]
        intro hmem
        rcases (mem_paths_mkdir st.fs root _).mp hmem with hm | hm
        · rw [fsExists_false_iff] at hus
          exact hus hm
        · refine osPathJoin_ne_self root ['_'] (by simp) (by decide) ?_
          simpa [full_path] using hm
      have hs : sanitize_name stream ({ st with fs := st.fs.mkdir root, created_path := root } : St).fs
          st.k ([] : Str) root true = (['_'], st.k) := by
        simp only [sanitize_name, hbase, hne, Bool.false_eq_true, if_false]
      simp only [splitOnNl, create_subfolders, create_folder] at hok
      rw [show ({ st with fs := st.fs.mkdir root, created_path := root } : St).k = st.k from rfl] at hok
      rw [hs] at hok
      simp only [Except.ok.injEq, Prod.mk.injEq] at hok
      obtain ⟨hfm, hst⟩ := hok
      refine ⟨?_, ?_, rfl⟩
      · rw [← hfm]
        have hne2 : ([] : Str) ≠ TRASH_FOLDER_CSV_NAME := by decide
        rw [fmLookup, assocLast_append_other _ _ _ _ hne2]
        rfl
      · rw [← hst]
        simp [FS.mkdir]

/-- Witness for C10: an empty folders string over an empty file system. -/
theorem c10_create_folders_count_witness :
    (⟨⟨["out".data, "out/_".data, "out/Recycle-bin".data], []⟩,
        "out".data, 0⟩ : St).fs.dirs.length
      = (⟨⟨[], []⟩, [], 0⟩ : St).fs.dirs.length + (splitOnNl []).length + 2
    ∧ fmLookup [(([] : Str), "out/_".data), (TRASH_FOLDER_CSV_NAME, "out/Recycle-bin".data)] []
        = some (full_path ['_'] "out".data true)
    ∧ full_path ['_'] "out".data true
        ∈ (⟨⟨["out".data, "out/_".data, "out/Recycle-bin".data], []⟩,
            "out".data, 0⟩ : St).fs.dirs
    ∧ resolve_dir [(([] : Str), "out/_".data), (TRASH_FOLDER_CSV_NAME, "out/Recycle-bin".data)]
        "out".data [] = .ok "out".data := by
  have h := c10_create_folders_count (fun _ => (0 : Fin 10))
    (JVal.obj [(strFoldersKey, JVal.str [])])
    "out".data ⟨⟨[], []⟩, [], 0⟩
    [(([] : Str), "out/_".data), (TRASH_FOLDER_CSV_NAME, "out/Recycle-bin".data)]
    ⟨⟨["out".data, "out/_".data, "out/Recycle-bin".data], []⟩, "out".data, 0⟩
    [] (by rfl) (by rfl)
  obtain ⟨h1, h2⟩ := h
  obtain ⟨h3, h4, h5⟩ := h2 rfl (by rfl)
  exact ⟨h1, h3, h4, h5⟩

/-! ## Helper lemmas: the write loop of `create_files` -/

theorem create_subfolders_mono (stream : Nat → Fin 10) (root : Str) :
    ∀ (lst : List Str) (st : St) (acc : FolderMap) (p : Str),
      fsExists st.fs p = true →
      fsExists (create_subfolders stream root lst st acc).2.fs p = true := by
  intro lst
  induction lst with
  | nil => intro st acc p hp; exact hp
  | cons fname rest ih =>
    intro st acc p hp
    simp only [create_subfolders]
    apply ih
    rw [fsExists_true_iff] at hp ⊢
    exact (mem_paths_mkdir _ _ _).mpr (Or.inl hp)

theorem create_folders_mono (stream : Nat → Fin 10) (fj : JVal) (root : Str)
    (st : St) (fmap : FolderMap) (st1 : St)
    (hok : create_folders stream fj root st = .ok (fmap, st1)) :
    ∀ p, fsExists st.fs p = true → fsExists st1.fs p = true := by
  unfold create_folders at hok
  split at hok
  · cases hok
  · split at hok
    case _ kvs =>
      revert hok
      cases objLookup kvs strFoldersKey with
      | none => intro hok; cases hok
      | some v =>
      cases v with
      | str fstr => ?_
      | num x => intro hok; cases hok
      | bool x => intro hok; cases hok
      | null => intro hok; cases hok
      | arr x => intro hok; cases hok
      | obj x => intro hok; cases hok
      intro hok
      simp only [create_folder, Except.ok.injEq, Prod.mk.injEq] at hok
      obtain ⟨-, hst⟩ := hok
      intro p hp
      have h1 : fsExists ({ st with fs := st.fs.mkdir root, created_path := root } : St).fs
          p = true := by
        rw [fsExists_true_iff] at hp ⊢
        exact (mem_paths_mkdir _ _ _).mpr (Or.inl hp)
      have h2 := create_subfolders_mono stream root (splitOnNl fstr)
        { st with fs := st.fs.mkdir root, created_path := root } [] p h1
      rw [← hst]
      rw [fsExists_true_iff] at h2 ⊢
      exact (mem_paths_mkdir _ _ _).mpr (Or.inl h2)
    case _ => cases hok

theorem create_files_loop_spec (stream : Nat → Fin 10) (cj : JVal)
    (fmap : FolderMap) (root : Str) :
    ∀ (descs : List NoteDesc) (st st' : St),
      create_files_loop stream cj fmap root descs st = .ok st' →
      (∀ p c, fileLookup st.fs p = some c → fileLookup st'.fs p = some c)
      ∧ (∀ p, fsExists st.fs p = true → fsExists st'.fs p = true)
      ∧ (∀ p c, fileLookup st'.fs p = some c →
          fileLookup st.fs p = some c ∨ ∃ d ∈ descs, jStrLookup cj d.index = some c)
      ∧ (∀ d ∈ descs, ∃ p, (∃ stem, p = stem ++ NOTE_FILE_EXTENSION)
          ∧ fsExists st.fs p = false
          ∧ ∃ text, jStrLookup cj d.index = some text
              ∧ fileLookup st'.fs p = some text) := by
  intro descs
  induction descs with
  | nil =>
    intro st st' h
    simp only [create_files_loop, Except.ok.injEq] at h
    subst h
    exact ⟨fun _ _ hc => hc, fun _ hp => hp, fun _ _ hc => Or.inl hc, by simp⟩
  | cons d rest ih =>
    intro st st' h
    simp only [create_files_loop] at h
    split at h
    · cases h
    · rename_i dir hdir
      split at h
      · cases h
      · cases h
      · split at h
        · rename_i kvs hin
          split at h
          · rename_i text hlook
            have htext : jStrLookup (JVal.obj kvs) d.index = some text := by
              simp only [jStrLookup, hlook]
            obtain ⟨ih1, ih2, ih3, ih4⟩ := ih _ _ h
            set fname := (sanitize_name stream st.fs st.k d.name dir false).1 with hfn
            set fpath := full_path fname dir false with hfp
            have hfresh : fsExists st.fs fpath = false :=
              sanitize_name_fresh stream st.fs st.k d.name dir false
            have hnone : fileLookup st.fs fpath = none :=
              fileLookup_none_of_not_mem _ _ ((fsExists_false_iff _ _).mp hfresh)
            have hself : fileLookup ((st.fs.setFile fpath []).setFile fpath text) fpath
                = some text := fileLookup_setFile_self _ _ _
            have hother : ∀ q, q ≠ fpath →
                fileLookup ((st.fs.setFile fpath []).setFile fpath text) q
                  = fileLookup st.fs q := by
              intro q hq
              rw [fileLookup_setFile_other _ _ _ _ hq, fileLookup_setFile_other _ _ _ _ hq]
            have hmono2 : ∀ q, fsExists st.fs q = true →
                fsExists ((st.fs.setFile fpath []).setFile fpath text) q = true := by
              intro q hq
              rw [fsExists_true_iff] at hq ⊢
              exact (mem_paths_setFile _ _ _ _).mpr
                (Or.inl ((mem_paths_setFile _ _ _ _).mpr (Or.inl hq)))
            refine ⟨?_, ?_, ?_, ?_⟩
            · intro p c hc
              by_cases hpq : p = fpath
              · rw [hpq, hnone] at hc; cases hc
              · exact ih1 p c (by rw [hother p hpq]; exact hc)
            · intro p hp
              exact ih2 p (hmono2 p hp)
            · intro p c hc
              rcases ih3 p c hc with h2 | ⟨d', hd', hkey⟩
              · by_cases hpq : p = fpath
                · rw [hpq, hself] at h2
                  rw [Option.some.injEq] at h2
                  subst h2
                  exact Or.inr ⟨d, List.mem_cons_self _ _, htext⟩
                · rw [hother p hpq] at h2
                  exact Or.inl h2
              · exact Or.inr ⟨d', List.mem_cons_of_mem _ hd', hkey⟩
            · intro d' hd'
              rcases List.mem_cons.mp hd' with rfl | hd''
              · refine ⟨fpath, ⟨osPathJoin dir fname, by rw [hfp]; rfl⟩, hfresh,
                  text, htext, ?_⟩
                exact ih1 fpath text hself
              · obtain ⟨p, hstem, hfr, text', hkey', hlook'⟩ := ih4 d' hd''
                refine ⟨p, hstem, ?_, text', hkey', hlook'⟩
                by_cases hpe : fsExists st.fs p = true
                · rw [hmono2 p hpe] at hfr; cases hfr
                · simpa using hpe
          · cases h
          · cases h
        · cases h

/-! ## Claim C1 -/

/-- Claim C1: round trip.  After a successful `create_files` export, every
parsed note descriptor has been written to some previously non-existing
file with the `.txt` extension whose full text, read back, is exactly the
content-record value for the descriptor's key; conversely every file
readable in the final state either predates the export or holds exactly
the content-record value of one of the exported descriptors. -/
theorem c1_export_roundtrip (stream : Nat → Fin 10) (ij fj cj : JVal)
    (root : Str) (st st' : St) (csvS : Str) (descs : List NoteDesc)
    (hok : create_files stream ij fj cj root st = .ok st')
    (hls : jStrLookup ij strIndexKey = some csvS)
    (hcsv : parse_csv csvS = .ok descs) :
    (∀ d ∈ descs, ∃ p, (∃ stem, p = stem ++ NOTE_FILE_EXTENSION)
        ∧ fsExists st.fs p = false
        ∧ ∃ text, jStrLookup cj d.index = some text ∧ fileLookup st'.fs p = some text)
    ∧ (∀ p text, fileLookup st'.fs p = some text →
        fileLookup st.fs p = some text
          ∨ ∃ d ∈ descs, jStrLookup cj d.index = some text) := by
  obtain ⟨kvs, rfl, hobj⟩ := jStrLookup_some_elim ij strIndexKey csvS hls
  unfold create_files at hok
  split at hok
  · cases hok
  · rename_i fmap st1 heq
    simp only [hobj] at hok
    split at hok
    · cases hok
    · rename_i descs2 hdescs
      rw [hcsv] at hdescs
      rw [Except.ok.injEq] at hdescs
      subst hdescs
      obtain ⟨l1, l2, l3, l4⟩ := create_files_loop_spec stream cj fmap root _ st1 st' hok
      have hfe : st1.fs.files = st.fs.files :=
        (create_folders_effects stream fj root st fmap st1 heq).1
      have hflk : ∀ p, fileLookup st1.fs p = fileLookup st.fs p := by
        intro p
        unfold fileLookup
        rw [hfe]
      have hmono := create_folders_mono stream fj root st fmap st1 heq
      constructor
      · intro d hd
        obtain ⟨p, hstem, hfr, text, hkey, hlook⟩ := l4 d hd
        refine ⟨p, hstem, ?_, text, hkey, hlook⟩
        by_cases hpe : fsExists st.fs p = true
        · rw [hmono p hpe] at hfr; cases hfr
        · simpa using hpe
      · intro p text hlk
        rcases l3 p text hlk with h2 | h2
        · rw [hflk] at h2
          exact Or.inl h2
        · exact Or.inr h2

/-- Witness for C1: the one-note dump exported into an empty file system;
the note `Quick` with content key `_1` is written to `out/Quick.txt` with
text `call bob`. -/
theorem c1_export_roundtrip_witness :
    (∀ d ∈ [(⟨"_1".data, [], "Quick".data⟩ : NoteDesc)],
        ∃ p, (∃ stem, p = stem ++ NOTE_FILE_EXTENSION)
        ∧ fsExists (⟨[], []⟩ : FS) p = false
        ∧ ∃ text, jStrLookup (JVal.obj [("_1".data, JVal.str "call bob".data)]) d.index
              = some text
            ∧ fileLookup (⟨["out".data, "out/_".data, "out/Recycle-bin".data],
                [("out/Quick.txt".data, "call bob".data)]⟩ : FS) p = some text)
    ∧ (∀ p text,
        fileLookup (⟨["out".data, "out/_".data, "out/Recycle-bin".data],
            [("out/Quick.txt".data, "call bob".data)]⟩ : FS) p = some text →
        fileLookup (⟨[], []⟩ : FS) p = some text
        ∨ ∃ d ∈ [(⟨"_1".data, [], "Quick".data⟩ : NoteDesc)],
            jStrLookup (JVal.obj [("_1".data, JVal.str "call bob".data)]) d.index
              = some text) :=
  c1_export_roundtrip (fun _ => (0 : Fin 10))
    (JVal.obj [(strIndexKey, JVal.str "1;;;;;;;;;Quick".data)])
    (JVal.obj [(strFoldersKey, JVal.str [])])
    (JVal.obj [("_1".data, JVal.str "call bob".data)]) "out".data
    ⟨⟨[], []⟩, [], 0⟩
    ⟨⟨["out".data, "out/_".data, "out/Recycle-bin".data],
        [("out/Quick.txt".data, "call bob".data)]⟩, "out".data, 0⟩
    "1;;;;;;;;;Quick".data [⟨"_1".data, [], "Quick".data⟩]
    (by rfl) (by rfl) (by rfl)

/-! ## Claim C4 -/

end FastNotepad
